import Mathlib

set_option linter.unusedVariables false

/-!
Shallow embedding of the dbms repository's storage engine
(src/storage/storage.py), its error hierarchy (src/common/errors.py), its
configuration constants (src/common/config.py) and the SQL front end
(src/parser/lexer.py, src/parser/parser.py), together with proofs that
settle the frozen claims about the specification.

Modelling conventions:
- Python values that can appear in a row are modelled by `PyVal`.
  Python floats are represented by their textual form (the string produced
  by `str(float)`); no claim settled here depends on float arithmetic.
- CSV data files are modelled at row granularity: `csv` writing followed by
  `csv` reading returns the written cell strings unchanged, so a data file
  is a header flag plus a list of raw string rows.  The header line written
  by `append_rows` always consists of the table's declared column names
  (the table metadata's column list never changes), so the header content
  is left implicit.
- Machine-level errors (Python exceptions) are `PyError` values carrying
  the exception class and message; the class hierarchy of errors.py is
  reproduced by `strictAncestors`.
- Stateful operations are pure functions from an `Engine` state; an
  operation that raises returns `.error` and, the functions being pure,
  leaves the caller's state untouched exactly when the Python code raises
  before mutating.
- The unbounded `while` loop of `append_rows` is modelled with explicit
  fuel; termination means that some fuel returns `some`, divergence that
  every fuel returns `none`.
-/

/-- The characters Python's `str.strip()` (and `int()` / `float()` argument
stripping) removes; ASCII whitespace only (the exotic unicode whitespace
accepted by Python is not exercised by this code base). -/
def isPyWs (c : Char) : Bool :=
  c = ' ' || c = '\t' || c = '\n' || c = '\r' || c = '\x0b' || c = '\x0c'

/-- ASCII lowercasing, modelling Python's `str.lower()` on the ASCII
strings this code base manipulates. -/
def charLower (c : Char) : Char :=
  if c.toNat ≥ 65 && c.toNat ≤ 90 then Char.ofNat (c.toNat + 32) else c

/-- ASCII uppercasing, modelling Python's `str.upper()`. -/
def charUpper (c : Char) : Char :=
  if c.toNat ≥ 97 && c.toNat ≤ 122 then Char.ofNat (c.toNat - 32) else c

def pyLower (s : String) : String := (s.toList.map charLower).asString

def pyUpper (s : String) : String := (s.toList.map charUpper).asString

/-- Python's `str.startswith`. -/
def pyStartsWith (s p : String) : Bool := List.isPrefixOf p.toList s.toList

/-- Python's `str.endswith`. -/
def pyEndsWith (s p : String) : Bool := List.isSuffixOf p.toList s.toList

def pyStripWs (l : List Char) : List Char :=
  ((l.dropWhile isPyWs).reverse.dropWhile isPyWs).reverse

/-- Value of a list of decimal digit characters. -/
def digitsToNat (l : List Char) : Nat :=
  l.foldl (fun a c => a * 10 + (c.toNat - 48)) 0

def noDoubleUnderscore : List Char → Bool
  | [] => true
  | [_] => true
  | a :: b :: rest => !(a = '_' && b = '_') && noDoubleUnderscore (b :: rest)

/-- A digit run as accepted inside Python numeric literals by `int()` /
`float()`: nonempty decimal digits with single underscores strictly
between digits. -/
def pyDigitRun? : List Char → Option Nat := fun l =>
  if l.isEmpty then none
  else if !(l.all fun c => c.isDigit || c = '_') then none
  else if !(l.headD '0').isDigit then none
  else if !(l.getLastD '0').isDigit then none
  else if !noDoubleUnderscore l then none
  else some (digitsToNat (l.filter Char.isDigit))

/-- Python's `int(s)` on a string argument: strip whitespace, optional
sign, decimal digit run (underscores allowed between digits).  Returns
`none` where Python raises `ValueError`. -/
def pyIntParse? (s : String) : Option Int :=
  match pyStripWs s.toList with
  | '+' :: rest => (pyDigitRun? rest).map fun n => (n : Int)
  | '-' :: rest => (pyDigitRun? rest).map fun n => -(n : Int)
  | l => (pyDigitRun? l).map fun n => (n : Int)

/-- Whether Python's `float(s)` on a string argument succeeds: strip
whitespace, optional sign, then `inf`/`infinity`/`nan` (case-insensitive)
or a decimal form `[digits][.digits][ (e|E) [sign] digits ]` containing at
least one mantissa digit. -/
def pyFloatOk (s : String) : Bool :=
  let l0 := pyStripWs s.toList
  let l1 := match l0 with
    | '+' :: r => r
    | '-' :: r => r
    | l => l
  let lw := l1.map charLower
  if lw = "inf".toList || lw = "infinity".toList || lw = "nan".toList then true
  else
    let mant := l1.takeWhile fun c => !(c = 'e' || c = 'E')
    let expPart := l1.drop mant.length
    let ip := mant.takeWhile fun c => !(c = '.')
    let rest := mant.drop ip.length
    let fracOk := match rest with
      | [] => true
      | '.' :: fp => fp.isEmpty || (pyDigitRun? fp).isSome
      | _ => false
    let ipOk := ip.isEmpty || (pyDigitRun? ip).isSome
    let haveDigit := !ip.isEmpty || (match rest with
      | '.' :: fp => !fp.isEmpty
      | _ => false)
    let expOk := match expPart with
      | [] => true
      | _ :: r =>
        let r2 := match r with
          | '+' :: r3 => r3
          | '-' :: r3 => r3
          | r3 => r3
        (pyDigitRun? r2).isSome
    ipOk && fracOk && haveDigit && expOk

/-- A Python value as it can appear in a row handed to `append_rows` or
produced by `scan_table`'s type coercion.  Floats are carried as the
string `str(float)` produces for them; no settled claim depends on float
arithmetic or on distinguishing two spellings of one float. -/
inductive PyVal where
  | none : PyVal
  | bool (b : Bool) : PyVal
  | int (n : Int) : PyVal
  | float (lit : String) : PyVal
  | str (s : String) : PyVal
deriving DecidableEq, Repr

/-- The string the `csv` module writes for a Python value: `None` becomes
the empty field, other values are written via `str()`. -/
def pyStr : PyVal → String
  | .none => ""
  | .bool true => "True"
  | .bool false => "False"
  | .int n => toString n
  | .float lit => lit
  | .str s => s

/-- Mirror of the exception classes of src/common/errors.py plus the
Python builtins raised by the storage code. -/
inductive ErrClass where
  | DBMSError | StorageError | DatabaseError | TableError
  | ValidationError | ParserError | ExecutorError
  | DatabaseNotFoundError | DatabaseExistsError
  | TableNotFoundError | TableExistsError
  | SchemaError | DataTypeError
  | KeyError | ValueError | FileNotFoundError
deriving DecidableEq, Repr

/-- The proper superclasses of each class, read off the `class` headers of
src/common/errors.py.  Python builtins (`KeyError`, `ValueError`,
`FileNotFoundError`) are outside the DBMS hierarchy. -/
def strictAncestors : ErrClass → List ErrClass
  | .DBMSError => []
  | .StorageError => [.DBMSError]
  | .DatabaseError => [.StorageError, .DBMSError]
  | .TableError => [.StorageError, .DBMSError]
  | .ValidationError => [.DBMSError]
  | .ParserError => [.DBMSError]
  | .ExecutorError => [.DBMSError]
  | .DatabaseNotFoundError => [.DatabaseError, .StorageError, .DBMSError]
  | .DatabaseExistsError => [.DatabaseError, .StorageError, .DBMSError]
  | .TableNotFoundError => [.TableError, .StorageError, .DBMSError]
  | .TableExistsError => [.TableError, .StorageError, .DBMSError]
  | .SchemaError => [.ValidationError, .DBMSError]
  | .DataTypeError => [.ValidationError, .DBMSError]
  | .KeyError => []
  | .ValueError => []
  | .FileNotFoundError => []

/-- Model of the isinstance check `isinstance(e, D)`: the class `c` of a raised error is of
kind `d` iff `c` is `d` or a strict descendant of `d`. -/
def isKindOf (c d : ErrClass) : Bool := c = d || d ∈ strictAncestors c

/-- A raised Python exception: class plus message. -/
structure PyError where
  cls : ErrClass
  msg : String
deriving DecidableEq, Repr

/-- A single quote character, written by code point to keep source
scanning simple. -/
def sQuote : String := "\x27"

def quoted (s : String) : String := sQuote ++ s ++ sQuote

/-- Embedding of `convert_value` from `StorageEngine.scan_table`
(src/storage/storage.py lines 270-285).  The input is the raw cell text
read from a CSV file (always a string); `typ` is the declared column type,
already uppercased by the caller.  `int()` and `float()` raise
`ValueError` on non-convertible text, which the Python code does not
catch. -/
def convert_value (val : String) (typ : String) : Except PyError PyVal :=
  if val = "" then .ok .none
  else if pyStartsWith typ "VARCHAR" || pyStartsWith typ "CHAR" then .ok (.str val)
  else if typ = "INTEGER" then
    match pyIntParse? val with
    | some n => .ok (.int n)
    | none => .error ⟨.ValueError, "invalid literal for int() with base 10: " ++ quoted val⟩
  else if typ = "BIGINT" then
    match pyIntParse? val with
    | some n => .ok (.int n)
    | none => .error ⟨.ValueError, "invalid literal for int() with base 10: " ++ quoted val⟩
  else if typ = "FLOAT" || typ = "DOUBLE" then
    if pyFloatOk val then .ok (.float val)
    else .error ⟨.ValueError, "could not convert string to float: " ++ quoted val⟩
  else if typ = "BOOLEAN" then
    .ok (.bool (pyLower val = "1" || pyLower val = "true" || pyLower val = "yes"))
  else if typ = "DATE" || typ = "TIMESTAMP" then .ok (.str val)
  else .ok (.str val)

/-! ### Configuration (src/common/config.py)

The repository ships no config.yaml, so `TYPE_SIZES` equals
`DEFAULT_TYPE_SIZES` and the default max file size is 100 MiB; the
engine's max file size stays a parameter because the `StorageEngine`
constructor accepts one. -/

def TYPE_SIZES : List (String × Nat) :=
  [("VARCHAR", 255), ("CHAR", 1), ("INTEGER", 4), ("BIGINT", 8),
   ("FLOAT", 8), ("DOUBLE", 8), ("BOOLEAN", 1), ("DATE", 8),
   ("TIMESTAMP", 8), ("FALLBACK", 16)]

def DEFAULT_MAX_FILE_SIZE_BYTES : Nat := 100 * 1024 * 1024

/-- A column definition as handed to `create_table`: the fields the
storage engine reads (`col["name"]`, `col["type"]`). -/
structure ColumnDef where
  name : String
  type : String
deriving DecidableEq, Repr

/-- Length extraction in the style of the anchored regex match
`re.match` of `VARCHAR\((\d+)\)`: an
anchored match of `pre ++ "(" ++ digits ++ ")"` at the start of `t`
(trailing characters are allowed, as with `re.match`). -/
def parenLenParam (pre t : String) : Option Nat :=
  if pyStartsWith t (pre ++ "(") then
    let rest := t.toList.drop (pre.toList.length + 1)
    let digs := rest.takeWhile Char.isDigit
    match rest.drop digs.length with
    | ')' :: _ => if digs.isEmpty then none else some (digitsToNat digs)
    | _ => none
  else none

/-- Embedding of `get_col_size` from `StorageEngine.create_table`
(src/storage/storage.py lines 179-193). -/
def get_col_size (col : ColumnDef) : Nat :=
  let t := pyUpper col.type
  if pyStartsWith t "VARCHAR" then
    (parenLenParam "VARCHAR" t).getD ((TYPE_SIZES.lookup "VARCHAR").getD 0)
  else if pyStartsWith t "CHAR" then
    (parenLenParam "CHAR" t).getD ((TYPE_SIZES.lookup "CHAR").getD 0)
  else if (TYPE_SIZES.lookup t).isSome then (TYPE_SIZES.lookup t).getD 0
  else (TYPE_SIZES.lookup "FALLBACK").getD 0

/-- The `max_rows_per_file` value computed by `create_table`
(src/storage/storage.py lines 195-199). -/
def computedMaxRows (maxFileSizeBytes : Nat) (columns : List ColumnDef) : Nat :=
  let maxRowSize := (columns.map get_col_size).sum
  if maxRowSize > 0 then maxFileSizeBytes / maxRowSize else 0

/-- The slice of table_metadata.json that `append_rows` / `scan_table`
read and write. -/
structure TableMetadata where
  name : String
  columns : List ColumnDef
  maxFileSizeBytes : Nat
  maxRowsPerFile : Nat
  latestDataFile : String
deriving DecidableEq, Repr

/-- One CSV data file, at row granularity: whether a header line has been
written, and the data rows as lists of cell strings. -/
structure DataFile where
  hasHeader : Bool
  rows : List (List String)
deriving DecidableEq, Repr

/-- Line count `sum(1 for _ in f)` of the file. -/
def DataFile.lineCount (f : DataFile) : Nat :=
  (if f.hasHeader then 1 else 0) + f.rows.length

def emptyDataFile : DataFile := ⟨false, []⟩

/-- A table directory on disk: table_metadata.json plus the data/
subdirectory, the latter as an association list file name to file. -/
structure TableDir where
  meta : TableMetadata
  data : List (String × DataFile)
deriving DecidableEq, Repr

/-- Association-list lookup (a dict lookup / a file-system path probe). -/
def alLookup {β : Type} : List (String × β) → String → Option β
  | [], _ => none
  | (k0, v0) :: rest, k => if k0 = k then some v0 else alLookup rest k

/-- Association-list update: replace the value under an existing key,
else add the binding (a fresh file appears in the directory). -/
def alSet {β : Type} : List (String × β) → String → β → List (String × β)
  | [], k, v => [(k, v)]
  | (k0, v0) :: rest, k, v =>
    if k0 = k then (k0, v) :: rest else (k0, v0) :: alSet rest k v

def alModify {β : Type} : List (String × β) → String → (β → β) → List (String × β)
  | [], _, _ => []
  | (k0, v0) :: rest, k, f =>
    if k0 = k then (k0, f v0) :: rest else (k0, v0) :: alModify rest k f

def alRemove {β : Type} (l : List (String × β)) (k : String) : List (String × β) :=
  l.filter fun p => !(p.1 = k)

/-- Python list slice `l[:k]` for a possibly negative `k`. -/
def pySliceTo {α : Type} (l : List α) (k : Int) : List α :=
  if 0 ≤ k then l.take k.toNat else l.take (((l.length : Int) + k).toNat)

/-- Python list slice `l[k:]` for a possibly negative `k`. -/
def pySliceFrom {α : Type} (l : List α) (k : Int) : List α :=
  if 0 ≤ k then l.drop k.toNat else l.drop (((l.length : Int) + k).toNat)

/-- The data file name `f"data_{i}.csv"`. -/
def fname (i : Nat) : String := "data_" ++ Nat.repr i ++ ".csv"

/-- Python's `str.split(sep)` for a single-character separator. -/
def splitOnChar (sep : Char) : List Char → List (List Char)
  | [] => [[]]
  | c :: r =>
    if c = sep then [] :: splitOnChar sep r
    else
      match splitOnChar sep r with
      | [] => [[c]]
      | g :: gs => (c :: g) :: gs

/-- Index recovery `int(latest_file.split("_")[1].split(".")[0])`: the index
from a well-formed data file name (every `latest_data_file` this engine
writes has the shape `data_<i>.csv`; `int()` on its digit run). -/
def parseDataIdx (s : String) : Nat :=
  let part1 := (splitOnChar '_' s.toList).getD 1 []
  let part0 := (splitOnChar '.' part1).getD 0 []
  (pyDigitRun? part0).getD 0

/-- CSV encoding of one row: `csv.DictWriter.writerows` writes `str(v)`
per declared column (`None` as the empty field). -/
def encRow (r : List PyVal) : List String := r.map pyStr

/-- The `while to_write:` loop of `append_rows` (src/storage/storage.py
lines 335-352), with explicit fuel.  State: the data directory, the
current file index (the file path is always `data_{file_idx}.csv`), the
tracked `current_rows`, and the remaining rows. -/
def appendLoop (maxRows : Nat) :
    Nat → List (String × DataFile) → Nat → Int → List (List PyVal) →
    Option (List (String × DataFile) × Nat)
  | 0, _, _, _, _ => none
  | _ + 1, data, fileIdx, _, [] => some (data, fileIdx)
  | fuel + 1, data, fileIdx, currentRows, r :: rs =>
    let toWrite := r :: rs
    let space : Int := (maxRows : Int) - currentRows
    let batch := pySliceTo toWrite space
    let rest := pySliceFrom toWrite space
    let name := fname fileIdx
    let existing := alLookup data name
    let writeHeader : Bool := existing.isNone || decide (currentRows ≤ 0)
    let f0 := existing.getD emptyDataFile
    let f1 : DataFile := ⟨f0.hasHeader || writeHeader, f0.rows ++ batch.map encRow⟩
    let data1 := alSet data name f1
    if rest.isEmpty then some (data1, fileIdx)
    else appendLoop maxRows fuel data1 (fileIdx + 1) 0 rest

/-- Embedding of `StorageEngine.append_rows` restricted to one table directory
(src/storage/storage.py lines 308-356): read `max_rows_per_file` and
`latest_data_file` from the metadata, count the lines of the latest file,
run the write loop, then persist the new `latest_data_file`. -/
def appendRowsT (t : TableDir) (rows : List (List PyVal)) (fuel : Nat) :
    Option TableDir :=
  let maxRows := t.meta.maxRowsPerFile
  let latest := t.meta.latestDataFile
  let idx0 := parseDataIdx latest
  let current0 : Int := match alLookup t.data latest with
    | some f => (f.lineCount : Int) - 1
    | none => 0
  match appendLoop maxRows fuel t.data idx0 current0 rows with
  | none => none
  | some (data1, idxF) =>
    some { meta := { t.meta with latestDataFile := fname idxF }, data := data1 }

/-! ### scan_table (src/storage/storage.py lines 250-306) -/

/-- Python's `<` on strings: lexicographic by code point. -/
def charLtB (a b : Char) : Bool := a.toNat < b.toNat

def lexLtB : List Char → List Char → Bool
  | [], [] => false
  | [], _ :: _ => true
  | _ :: _, [] => false
  | a :: as, b :: bs => if a = b then lexLtB as bs else charLtB a b

def strLtB (a b : String) : Bool := lexLtB a.toList b.toList

/-- Insert into an already sorted list, keeping equal keys stable. -/
def orderedInsertB (x : String) : List String → List String
  | [] => [x]
  | y :: ys => if strLtB y x then y :: orderedInsertB x ys else x :: y :: ys

/-- Model of `sorted(...)` over file names: Python's sort is a stable ascending
sort by `<`; on the pairwise-distinct names of a directory any sorted
permutation is unique, so insertion sort models it. -/
def sortedB : List String → List String
  | [] => []
  | x :: xs => orderedInsertB x (sortedB xs)

/-- The order in which `scan_table` visits files:
`sorted(os.listdir(data_dir))` filtered by `endswith(".csv")`. -/
def scanVisitOrder (t : TableDir) : List String :=
  (sortedB (t.data.map Prod.fst)).filter fun n => pyEndsWith n ".csv"

/-- The rows `csv.DictReader` yields from a data file.  A file with a
header yields its data rows; files written by this engine carry a header
whenever they have rows, and the header always lists the declared columns
(see the module comment), so a headerless file is empty and yields
nothing. -/
def readFileRows (f : DataFile) : List (List String) :=
  if f.hasHeader then f.rows else f.rows.drop 1

/-- Field-by-field coercion of one raw CSV row:
`{col: convert_value(row[col], col_types[col]) for col in row}` with
`col_types = {c["name"]: c["type"].upper() for c in columns}`; the header
columns are the declared columns in order. -/
def convertFields : List (ColumnDef × String) → Except PyError (List PyVal)
  | [] => .ok []
  | (c, v) :: rest =>
    match convert_value v (pyUpper c.type) with
    | .error e => .error e
    | .ok w =>
      match convertFields rest with
      | .error e => .error e
      | .ok ws => .ok (w :: ws)

def convertRow (cols : List ColumnDef) (raw : List String) :
    Except PyError (List PyVal) :=
  convertFields (cols.zip raw)

/-- Convert every row of a list, stopping at the first conversion
error (the generator raises there). -/
def convertRows (cols : List ColumnDef) : List (List String) →
    Except PyError (List (List PyVal))
  | [] => .ok []
  | raw :: rest =>
    match convertRow cols raw with
    | .error e => .error e
    | .ok r =>
      match convertRows cols rest with
      | .error e => .error e
      | .ok rs => .ok (r :: rs)

/-- Walk the visit order, reading and coercing each file's rows. -/
def scanFilesGo (cols : List ColumnDef) (data : List (String × DataFile)) :
    List String → Except PyError (List (List PyVal))
  | [] => .ok []
  | n :: ns =>
    match convertRows cols (readFileRows ((alLookup data n).getD emptyDataFile)) with
    | .error e => .error e
    | .ok rs =>
      match scanFilesGo cols data ns with
      | .error e => .error e
      | .ok rest => .ok (rs ++ rest)

/-- The flat stream of typed rows `scan_table` produces before batching:
data files in `sorted(os.listdir(...))` order, each file's rows in file
order, each field coerced by `convert_value`. -/
def scanRows (t : TableDir) : Except PyError (List (List PyVal)) :=
  scanFilesGo t.meta.columns t.data (scanVisitOrder t)

/-- The batching of `scan_table`: accumulate rows, yield when the batch
reaches `batch_size`, yield a trailing non-empty partial batch. -/
def batchAcc {α : Type} (b : Nat) : List α → List α → List (List α)
  | acc, [] => if acc.isEmpty then [] else [acc]
  | acc, x :: xs =>
    let acc1 := acc ++ [x]
    if acc1.length = b then acc1 :: batchAcc b [] xs else batchAcc b acc1 xs

/-- Embedding of `StorageEngine.scan_table` restricted to one table directory: the
list of yielded batches, or the exception the generator raises.  (The
real generator can yield some complete batches before raising; no settled
claim depends on those partial yields.) -/
def scanTableT (t : TableDir) (batchSize : Nat) :
    Except PyError (List (List (List PyVal))) :=
  match scanRows t with
  | .error e => .error e
  | .ok rs => .ok (batchAcc batchSize [] rs)

/-! ### The engine state and its operations -/

/-- The table metadata constructed by `create_table`
(src/storage/storage.py lines 201-212). -/
def newTableMeta (maxFileSizeBytes : Nat) (tableName : String)
    (columns : List ColumnDef) : TableMetadata :=
  { name := tableName
    columns := columns
    maxFileSizeBytes := maxFileSizeBytes
    maxRowsPerFile := computedMaxRows maxFileSizeBytes columns
    latestDataFile := "data_0.csv" }

/-- The table directory `create_table` lays down: fresh metadata plus an
empty `data_0.csv`. -/
def freshTableDir (maxFileSizeBytes : Nat) (tableName : String)
    (columns : List ColumnDef) : TableDir :=
  ⟨newTableMeta maxFileSizeBytes tableName columns,
   [("data_0.csv", emptyDataFile)]⟩

/-- In-memory global metadata entry for one table. -/
structure MemTable where
  uid : String
deriving DecidableEq, Repr

/-- In-memory global metadata entry for one database:
`{"uid": ..., "tables": {name: {"uid": ...}}}`. -/
structure MemDb where
  uid : String
  tables : List (String × MemTable)
deriving DecidableEq, Repr

/-- On-disk `db_<uid>/` directory: db_metadata.json's name field plus the
table directories keyed by table uid. -/
structure DiskDb where
  name : String
  tables : List (String × TableDir)
deriving DecidableEq, Repr

/-- The storage engine state: the in-memory global metadata
(`self.metadata["databases"]`) and the on-disk tree under the base path.
The persisted global_metadata.json always mirrors `mem` (it is rewritten
wholesale on every mutation) and is not duplicated here. -/
structure Engine where
  maxFileSizeBytes : Nat
  mem : List (String × MemDb)
  disk : List (String × DiskDb)
deriving DecidableEq, Repr

/-- A freshly constructed engine over an empty base directory. -/
def newEngine (maxFileSizeBytes : Nat) : Engine :=
  ⟨maxFileSizeBytes, [], []⟩

/-- Embedding of `StorageEngine.create_database` (src/storage/storage.py lines
94-140).  `uid` stands for the `uuid4` draw. -/
def create_database (e : Engine) (name : String) (uid : String) :
    Except PyError (String × Engine) :=
  if (alLookup e.mem name).isSome then
    .error ⟨.DatabaseExistsError, "Database " ++ quoted name ++ " already exists"⟩
  else
    .ok (uid,
      { e with
        mem := alSet e.mem name ⟨uid, []⟩
        disk := alSet e.disk uid ⟨name, []⟩ })

/-- Embedding of `StorageEngine.create_table` (src/storage/storage.py lines 142-248).
Validation happens before any directory or metadata is touched; the
raised classes are the generic `DatabaseError` / `TableError`. -/
def create_table (e : Engine) (dbName tableName : String)
    (columns : List ColumnDef) (uid : String) :
    Except PyError (String × Engine) :=
  match alLookup e.mem dbName with
  | none =>
    .error ⟨.DatabaseError, "Database " ++ quoted dbName ++ " not found"⟩
  | some dbe =>
    if (alLookup dbe.tables tableName).isSome then
      .error ⟨.TableError,
        "Table " ++ quoted tableName ++ " already exists in database " ++
          quoted dbName⟩
    else
      .ok (uid,
        { e with
          mem := alModify e.mem dbName (fun d =>
            { d with tables := alSet d.tables tableName ⟨uid⟩ }),
          disk := alModify e.disk dbe.uid (fun dd =>
            { dd with tables := alSet dd.tables uid (freshTableDir e.maxFileSizeBytes tableName columns) }) })

/-- Embedding of `StorageEngine.append_rows` at the engine level.  The metadata
lookups are raw dict indexing: an unknown database or table name raises
`KeyError` before any file is touched.  `none` means the write loop ran
out of fuel (the Python loop diverges). -/
def append_rows (e : Engine) (dbName tableName : String)
    (rows : List (List PyVal)) (fuel : Nat) :
    Option (Except PyError Engine) :=
  match alLookup e.mem dbName with
  | none => some (.error ⟨.KeyError, dbName⟩)
  | some dbe =>
    match alLookup dbe.tables tableName with
    | none => some (.error ⟨.KeyError, tableName⟩)
    | some mt =>
      match (alLookup e.disk dbe.uid).bind fun dd => alLookup dd.tables mt.uid with
      | none => some (.error ⟨.FileNotFoundError, "table_metadata.json"⟩)
      | some tdir =>
        match appendRowsT tdir rows fuel with
        | none => none
        | some tdir1 =>
          some (.ok
            { e with
              disk := alModify e.disk dbe.uid (fun dd =>
                { dd with tables := alSet dd.tables mt.uid tdir1 }) })

/-- Embedding of `StorageEngine.scan_table` at the engine level; the same raw dict
indexing as `append_rows`. -/
def scan_table (e : Engine) (dbName tableName : String) (batchSize : Nat) :
    Except PyError (List (List (List PyVal))) :=
  match alLookup e.mem dbName with
  | none => .error ⟨.KeyError, dbName⟩
  | some dbe =>
    match alLookup dbe.tables tableName with
    | none => .error ⟨.KeyError, tableName⟩
    | some mt =>
      match (alLookup e.disk dbe.uid).bind fun dd => alLookup dd.tables mt.uid with
      | none => .error ⟨.FileNotFoundError, "table_metadata.json"⟩
      | some tdir => scanTableT tdir batchSize

/-- Embedding of `StorageEngine.delete_table` (src/storage/storage.py lines 358-386):
validates both names (generic `DatabaseError` / `TableError` classes),
then removes the table directory and the metadata entries. -/
def delete_table (e : Engine) (dbName tableName : String) :
    Except PyError Engine :=
  match alLookup e.mem dbName with
  | none =>
    .error ⟨.DatabaseError, "Database " ++ quoted dbName ++ " not found"⟩
  | some dbe =>
    match alLookup dbe.tables tableName with
    | none =>
      .error ⟨.TableError,
        "Table " ++ quoted tableName ++ " not found in database " ++
          quoted dbName⟩
    | some mt =>
      .ok
        { e with
          disk := alModify e.disk dbe.uid (fun dd =>
            { dd with tables := alRemove dd.tables mt.uid }),
          mem := alModify e.mem dbName (fun d =>
            { d with tables := alRemove d.tables tableName }) }

/-- Embedding of `StorageEngine.delete_database` (src/storage/storage.py lines
388-403). -/
def delete_database (e : Engine) (dbName : String) : Except PyError Engine :=
  match alLookup e.mem dbName with
  | none =>
    .error ⟨.DatabaseError, "Database " ++ quoted dbName ++ " not found"⟩
  | some dbe =>
    .ok { e with disk := alRemove e.disk dbe.uid, mem := alRemove e.mem dbName }

/-- The round-trip pipeline of the spec's testable property:
`create_database`, `create_table`, `append_rows`, then `scan_table`.
`none` means `append_rows` diverged. -/
def round_trip (maxFs : Nat) (dbName tblName dbUid tblUid : String)
    (cols : List ColumnDef) (rows : List (List PyVal)) (fuel batchSize : Nat) :
    Option (Except PyError (List (List (List PyVal)))) :=
  match create_database (newEngine maxFs) dbName dbUid with
  | .error e => some (.error e)
  | .ok (_, e1) =>
    match create_table e1 dbName tblName cols tblUid with
    | .error e => some (.error e)
    | .ok (_, e2) =>
      match append_rows e2 dbName tblName rows fuel with
      | none => none
      | some (.error e) => some (.error e)
      | some (.ok e3) => some (scan_table e3 dbName tblName batchSize)

/-- The field-wise coercion the round-trip property compares against:
what `convert_value` makes of the CSV encoding of a value at its declared
column type. -/
def coerceVal (typ : String) (v : PyVal) : PyVal :=
  match convert_value (pyStr v) (pyUpper typ) with
  | .ok w => w
  | .error _ => v

def coerceRow (cols : List ColumnDef) (row : List PyVal) : List PyVal :=
  (cols.zip row).map fun cv => coerceVal cv.1.type cv.2

/-- A value is consistent with a declared column type when its CSV
encoding converts back without raising. -/
def typeMatches (typ : String) (v : PyVal) : Bool :=
  match convert_value (pyStr v) (pyUpper typ) with
  | .ok _ => true
  | .error _ => false

/-- Rows consistent with a column list: one value per declared column,
each convertible at its column's declared type. -/
def rowsMatch (cols : List ColumnDef) (rows : List (List PyVal)) : Bool :=
  rows.all fun r =>
    r.length = cols.length &&
      (cols.zip r).all fun cv => typeMatches cv.1.type cv.2

/-! ### Spec-side definitions and proof-side helpers -/

/-- The per-column byte estimate exactly as the specification words it
(spec section 3, "Invariants"): `VARCHAR(n)` / `CHAR(n)` contribute their
declared length `n`, or the configured VARCHAR/CHAR fallback when the
length cannot be parsed; every other recognized type contributes its
configured fixed size; unrecognized types contribute the configured
fallback constant.  This is the spec-side counterpart of `get_col_size`,
to be compared with it. -/
def specColSize (col : ColumnDef) : Nat :=
  let t := pyUpper col.type
  if pyStartsWith t "VARCHAR" then
    match parenLenParam "VARCHAR" t with
    | some n => n
    | none => 255
  else if pyStartsWith t "CHAR" then
    match parenLenParam "CHAR" t with
    | some n => n
    | none => 1
  else if t = "INTEGER" then 4
  else if t = "BIGINT" then 8
  else if t = "FLOAT" then 8
  else if t = "DOUBLE" then 8
  else if t = "BOOLEAN" then 1
  else if t = "DATE" then 8
  else if t = "TIMESTAMP" then 8
  else if t = "VARCHAR" then 255
  else if t = "CHAR" then 1
  else if t = "FALLBACK" then 16
  else 16

/-- Chunks of size `n + 1`: how the rollover loop splits a row list over
successive fresh files once the current file starts empty. -/
def chunksBy (n : Nat) : List α → List (List α)
  | [] => []
  | x :: xs => (x :: xs.take n) :: chunksBy n (xs.drop n)
termination_by l => l.length
decreasing_by
  simp only [List.length_cons, List.length_drop]
  omega

/-- The directory entries the rollover loop creates from file index `i`
on: one fresh header-bearing file per chunk. -/
def filesFrom (i : Nat) : List (List (List PyVal)) → List (String × DataFile)
  | [] => []
  | c :: cs => (fname i, ⟨true, c.map encRow⟩) :: filesFrom (i + 1) cs

/-! ### SQL front end (src/parser/lexer.py, src/parser/parser.py)

Only the productions exercised by the settled claims are embedded; the
grammar is an LALR grammar driven by PLY and the embedding is the
recursive-descent reading of its productions (statement kinds other than
SELECT are rejected; the claims parse only a SELECT statement).  The
lexer is embedded in PLY's master-regex order: function rules in
definition order, then literal rules longest first.  The lexer defines no
newline rule, so `lineno` is always 1. -/

def quoteChar : Char := Char.ofNat 39

/-- Tokens as PLY produces them: a type tag and the value the lexer
attached (keyword text, identifier text, unquoted string content, numeric
or boolean value, operator text). -/
inductive Tok where
  | kw (ttype : String) (text : String)
  | ident (text : String)
  | numInt (v : Int)
  | numFloat (lit : String)
  | strTok (s : String)
  | boolTok (b : Bool)
  | sym (text : String)
deriving DecidableEq, Repr

/-- The reserved-word table of src/parser/lexer.py (lines 177-237). -/
def reservedWords : List (String × String) :=
  [("select", "SELECT"), ("from", "FROM"), ("where", "WHERE"),
   ("insert", "INSERT"), ("into", "INTO"), ("values", "VALUES"),
   ("update", "UPDATE"), ("set", "SET"), ("delete", "DELETE"),
   ("create", "CREATE"), ("table", "TABLE"), ("database", "DATABASE"),
   ("drop", "DROP"), ("alter", "ALTER"), ("add", "ADD"),
   ("column", "COLUMN"), ("primary", "PRIMARY"), ("key", "KEY"),
   ("not", "NOT"), ("null", "NULL"), ("integer", "INTEGER"),
   ("varchar", "VARCHAR"), ("char", "CHAR"), ("boolean", "BOOLEAN"),
   ("float", "FLOAT"), ("double", "DOUBLE"), ("date", "DATE"),
   ("timestamp", "TIMESTAMP"), ("text", "TEXT"), ("blob", "BLOB"),
   ("order", "ORDER"), ("by", "BY"), ("limit", "LIMIT"),
   ("offset", "OFFSET"), ("group", "GROUP"), ("having", "HAVING"),
   ("join", "JOIN"), ("left", "LEFT"), ("right", "RIGHT"),
   ("inner", "INNER"), ("outer", "OUTER"), ("on", "ON"), ("as", "AS"),
   ("distinct", "DISTINCT"), ("count", "COUNT"), ("sum", "SUM"),
   ("avg", "AVG"), ("max", "MAX"), ("min", "MIN"), ("asc", "ASC"),
   ("desc", "DESC"), ("and", "AND"), ("or", "OR"), ("like", "LIKE"),
   ("in", "IN"), ("between", "BETWEEN"), ("is", "IS"),
   ("true", "BOOLEAN_LITERAL"), ("false", "BOOLEAN_LITERAL")]

/-- Scan a string-literal body after the opening quote: a doubled quote
is an escaped quote, a single quote closes.  Returns the (unescaped)
content and the remaining input, or `none` when no closing quote exists
(Python raises "Unterminated string"). -/
def scanStrLit : List Char → Option (List Char × List Char)
  | [] => none
  | c :: r =>
    if c = quoteChar then
      match r with
      | c2 :: r2 =>
        if c2 = quoteChar then (scanStrLit r2).map fun p => (quoteChar :: p.1, p.2)
        else some ([], c2 :: r2)
      | [] => some ([], [])
    else (scanStrLit r).map fun p => (c :: p.1, p.2)

/-- Skip to just past the closing `*/` of a block comment, or `none` for
an unterminated comment. -/
def dropBlockComment : List Char → Option (List Char)
  | [] => none
  | '*' :: '/' :: r => some r
  | _ :: r => dropBlockComment r

def identCont (c : Char) : Bool := c.isAlpha || c.isDigit || c = '_'

/-- The tokenizer, with fuel (each step consumes at least one input
character, so `length + 1` fuel suffices). -/
def tokenizeGo : Nat → Nat → List Char → Except PyError (List Tok)
  | _, _, [] => .ok []
  | 0, _, _ => .error ⟨.ParserError, "lexer fuel exhausted"⟩
  | fuel + 1, pos, c :: rest =>
    if c = ' ' || c = '\t' || c = '\n' then tokenizeGo fuel (pos + 1) rest
    else if c = quoteChar then
      match scanStrLit rest with
      | none => .error ⟨.ParserError, "Unterminated string"⟩
      | some (content, r2) =>
        match tokenizeGo fuel (pos + (1 + rest.length - r2.length)) r2 with
        | .error e => .error e
        | .ok ts => .ok (.strTok content.asString :: ts)
    else if c = '-' && rest.headD ' ' = '-' then
      let skipped := rest.takeWhile fun d => !(d = '\n')
      tokenizeGo fuel (pos + 1 + skipped.length) (rest.drop skipped.length)
    else if c = '/' && rest.headD ' ' = '*' then
      match dropBlockComment (rest.drop 1) with
      | none => .error ⟨.ParserError, "Unterminated comment"⟩
      | some r2 => tokenizeGo fuel (pos + (1 + rest.length - r2.length)) r2
    else if c.isDigit then
      let digs := (c :: rest).takeWhile Char.isDigit
      let afterDigs := (c :: rest).drop digs.length
      match afterDigs with
      | '.' :: d2 :: _ =>
        if d2.isDigit then
          let frac := (afterDigs.drop 1).takeWhile Char.isDigit
          let lit := digs ++ '.' :: frac
          match tokenizeGo fuel (pos + lit.length) ((c :: rest).drop lit.length) with
          | .error e => .error e
          | .ok ts => .ok (.numFloat lit.asString :: ts)
        else
          match tokenizeGo fuel (pos + digs.length) afterDigs with
          | .error e => .error e
          | .ok ts => .ok (.numInt (digitsToNat digs) :: ts)
      | _ =>
        match tokenizeGo fuel (pos + digs.length) afterDigs with
        | .error e => .error e
        | .ok ts => .ok (.numInt (digitsToNat digs) :: ts)
    else if c.isAlpha || c = '_' then
      let word := (c :: rest).takeWhile identCont
      let tok :=
        match alLookup reservedWords (pyLower word.asString) with
        | some "BOOLEAN_LITERAL" => Tok.boolTok (pyLower word.asString = "true")
        | some ttype => Tok.kw ttype word.asString
        | none => Tok.ident word.asString
      match tokenizeGo fuel (pos + word.length) ((c :: rest).drop word.length) with
      | .error e => .error e
      | .ok ts => .ok (tok :: ts)
    else
      let two : Option String :=
        match c, rest.headD ' ' with
        | '!', '=' => some "!="
        | '<', '=' => some "<="
        | '>', '=' => some ">="
        | _, _ => none
      match two with
      | some op =>
        match tokenizeGo fuel (pos + 2) (rest.drop 1) with
        | .error e => .error e
        | .ok ts => .ok (.sym op :: ts)
      | none =>
        if c = '=' || c = '<' || c = '>' || c = '+' || c = '-' || c = '/' ||
            c = ',' || c = ';' || c = '(' || c = ')' || c = '.' || c = '*' then
          match tokenizeGo fuel (pos + 1) rest with
          | .error e => .error e
          | .ok ts => .ok (.sym (String.singleton c) :: ts)
        else
          .error ⟨.ParserError,
            "Illegal character " ++ quoted (String.singleton c) ++
              " at line 1, column " ++ Nat.repr pos⟩

/-- Model of `SQLLexer.tokenize`. -/
def tokenize (s : String) : Except PyError (List Tok) :=
  tokenizeGo (s.toList.length + 1) 0 s.toList

/-- AST expression nodes (src/parser/ast.py): `ColumnReference`,
`Literal`, `BinaryExpression`, `UnaryExpression`, `FunctionCall`.
`exprList` stands for the bare Python list that `p_comparison_expression`
installs as the right operand of `IN`. -/
inductive Expr where
  | columnRef (name : String) (table : Option String)
  | lit (value : PyVal) (type : String)
  | binary (left : Expr) (op : String) (right : Expr)
  | unary (op : String) (operand : Expr)
  | funcCall (name : String) (args : List Expr)
  | exprList (es : List Expr)

/-- `SelectStatement` (src/parser/ast.py): the fields `p_select_statement`
fills. -/
structure SelectStmt where
  columns : List Expr
  fromClause : String
  whereClause : Option Expr
  groupBy : Option (List Expr)
  having : Option Expr
  orderBy : Option (List (Expr × Option String))
  limit : Option Int × Option Int
  distinct : Bool

/-- Statement variants; only SELECT is embedded (see the section
comment). -/
inductive Stmt where
  | select (s : SelectStmt)

/-- `SQLStatement` root wrapper (`p_statement`). -/
structure SQLStmtRoot where
  statement : Stmt

def syntaxErrorAt (t : Tok) : PyError :=
  ⟨.ParserError, "Syntax error near token " ++
    (match t with
     | .kw _ text => text
     | .ident text => text
     | .numInt v => toString v
     | .numFloat lit => lit
     | .strTok s => s
     | .boolTok b => if b then "True" else "False"
     | .sym text => text)⟩

def eoiError : PyError := ⟨.ParserError, "Unexpected end of input"⟩

def parseErrorOf : List Tok → PyError
  | [] => eoiError
  | t :: _ => syntaxErrorAt t

/-- Comma-separated expression list (argument_list / value_list). -/
def parseListSep (pe : List Tok → Except PyError (Expr × List Tok)) :
    Nat → List Tok → Except PyError (List Expr × List Tok)
  | 0, _ => .error ⟨.ParserError, "parser fuel exhausted"⟩
  | fuel + 1, ts =>
    match pe ts with
    | .error e => .error e
    | .ok (e, r) =>
      match r with
      | .sym "," :: r2 =>
        (match parseListSep pe fuel r2 with
         | .error e2 => .error e2
         | .ok (es, r3) => .ok (e :: es, r3))
      | _ => .ok ([e], r)

/-- One primary_expression (src/parser/parser.py lines 778-843), covering
the column_expression constituents it embeds (column references, function
calls, literals), `NOT`, parenthesized sub-expressions and the flat
binary arithmetic; a trailing arithmetic operator takes a full primary as
its right operand, matching the LALR machine's shift preference.  `pe`
parses a full expression (for parentheses and argument lists); `fuel`
bounds the self-recursion. -/
def parsePrimary (pe : List Tok → Except PyError (Expr × List Tok)) :
    Nat → List Tok → Except PyError (Expr × List Tok)
  | 0, _ => .error ⟨.ParserError, "parser fuel exhausted"⟩
  | fuel + 1, ts =>
    let atomRes : Except PyError (Expr × List Tok) :=
      match ts with
      | .kw "NOT" _ :: r =>
        match parsePrimary pe fuel r with
        | .error e => .error e
        | .ok (operand, r2) => .ok (.unary "NOT" operand, r2)
      | .sym "(" :: r =>
        (match pe r with
         | .error e => .error e
         | .ok (inner, r2) =>
           match r2 with
           | .sym ")" :: r3 => .ok (inner, r3)
           | r3 => .error (parseErrorOf r3))
      | .kw "NULL" _ :: r => .ok (.lit .none "null", r)
      | .strTok s :: r => .ok (.lit (.str s) "string", r)
      | .numInt v :: r => .ok (.lit (.int v) "number", r)
      | .numFloat lit :: r => .ok (.lit (.float lit) "number", r)
      | .boolTok b :: r => .ok (.lit (.bool b) "boolean", r)
      | .kw agg text :: .sym "(" :: r =>
        if agg = "COUNT" || agg = "SUM" || agg = "AVG" || agg = "MAX" ||
            agg = "MIN" then
          match r with
          | .sym "*" :: .sym ")" :: r2 =>
            if agg = "COUNT" then
              .ok (.funcCall (pyLower text) [.columnRef "*" Option.none], r2)
            else .error (parseErrorOf r)
          | .ident n :: .sym "." :: .ident n2 :: .sym ")" :: r2 =>
            .ok (.funcCall (pyLower text) [.columnRef n2 (some n)], r2)
          | .ident n :: .sym ")" :: r2 =>
            .ok (.funcCall (pyLower text) [.columnRef n Option.none], r2)
          | r2 => .error (parseErrorOf r2)
        else .error (parseErrorOf ts)
      | .ident n :: .sym "(" :: r =>
        (match parseListSep pe fuel r with
         | .error e => .error e
         | .ok (args, r2) =>
           match r2 with
           | .sym ")" :: r3 => .ok (.funcCall (pyLower n) args, r3)
           | r3 => .error (parseErrorOf r3))
      | .ident n :: .sym "." :: .ident n2 :: r => .ok (.columnRef n2 (some n), r)
      | .ident n :: r => .ok (.columnRef n Option.none, r)
      | r => .error (parseErrorOf r)
    match atomRes with
    | .error e => .error e
    | .ok (atom, r) =>
      match r with
      | .sym "+" :: r2 =>
        (match parsePrimary pe fuel r2 with
         | .error e => .error e
         | .ok (right, r3) => .ok (.binary atom "+" right, r3))
      | .sym "-" :: r2 =>
        (match parsePrimary pe fuel r2 with
         | .error e => .error e
         | .ok (right, r3) => .ok (.binary atom "-" right, r3))
      | .sym "*" :: r2 =>
        (match parsePrimary pe fuel r2 with
         | .error e => .error e
         | .ok (right, r3) => .ok (.binary atom "*" right, r3))
      | .sym "/" :: r2 =>
        (match parsePrimary pe fuel r2 with
         | .error e => .error e
         | .ok (right, r3) => .ok (.binary atom "/" right, r3))
      | _ => .ok (atom, r)

/-- comparison_expression (src/parser/parser.py lines 736-775):
left-recursive chain of `< <= > >= LIKE IN(...)` over primary
expressions. -/
def parseCmpRest (pe : List Tok → Except PyError (Expr × List Tok)) :
    Nat → Expr → List Tok → Except PyError (Expr × List Tok)
  | 0, _, _ => .error ⟨.ParserError, "parser fuel exhausted"⟩
  | fuel + 1, left, ts =>
    match ts with
    | .sym "<" :: r =>
      (match parsePrimary pe fuel r with
       | .error e => .error e
       | .ok (right, r2) => parseCmpRest pe fuel (.binary left "<" right) r2)
    | .sym "<=" :: r =>
      (match parsePrimary pe fuel r with
       | .error e => .error e
       | .ok (right, r2) => parseCmpRest pe fuel (.binary left "<=" right) r2)
    | .sym ">" :: r =>
      (match parsePrimary pe fuel r with
       | .error e => .error e
       | .ok (right, r2) => parseCmpRest pe fuel (.binary left ">" right) r2)
    | .sym ">=" :: r =>
      (match parsePrimary pe fuel r with
       | .error e => .error e
       | .ok (right, r2) => parseCmpRest pe fuel (.binary left ">=" right) r2)
    | .kw "LIKE" _ :: .strTok s :: r =>
      parseCmpRest pe fuel (.binary left "LIKE" (.lit (.str s) "string")) r
    | .kw "IN" _ :: .sym "(" :: r =>
      (match parseListSep pe fuel r with
       | .error e => .error e
       | .ok (es, r2) =>
         match r2 with
         | .sym ")" :: r3 => parseCmpRest pe fuel (.binary left "IN" (.exprList es)) r3
         | r3 => .error (parseErrorOf r3))
    | _ => .ok (left, ts)

def parseComparison (pe : List Tok → Except PyError (Expr × List Tok))
    (fuel : Nat) (ts : List Tok) : Except PyError (Expr × List Tok) :=
  match parsePrimary pe fuel ts with
  | .error e => .error e
  | .ok (left, r) => parseCmpRest pe fuel left r

/-- equality_expression (src/parser/parser.py lines 696-733):
left-recursive chain of `= != IS NULL / IS NOT NULL`. -/
def parseEqRest (pe : List Tok → Except PyError (Expr × List Tok)) :
    Nat → Expr → List Tok → Except PyError (Expr × List Tok)
  | 0, _, _ => .error ⟨.ParserError, "parser fuel exhausted"⟩
  | fuel + 1, left, ts =>
    match ts with
    | .sym "=" :: r =>
      (match parseComparison pe fuel r with
       | .error e => .error e
       | .ok (right, r2) => parseEqRest pe fuel (.binary left "=" right) r2)
    | .sym "!=" :: r =>
      (match parseComparison pe fuel r with
       | .error e => .error e
       | .ok (right, r2) => parseEqRest pe fuel (.binary left "!=" right) r2)
    | .kw "IS" _ :: .kw "NOT" _ :: .kw "NULL" _ :: r =>
      parseEqRest pe fuel (.binary left "IS NOT NULL" (.lit .none "null")) r
    | .kw "IS" _ :: .kw "NULL" _ :: r =>
      parseEqRest pe fuel (.binary left "IS NULL" (.lit .none "null")) r
    | _ => .ok (left, ts)

def parseEquality (pe : List Tok → Except PyError (Expr × List Tok))
    (fuel : Nat) (ts : List Tok) : Except PyError (Expr × List Tok) :=
  match parseComparison pe fuel ts with
  | .error e => .error e
  | .ok (left, r) => parseEqRest pe fuel left r

/-- and_expression (src/parser/parser.py lines 682-693). -/
def parseAndRest (pe : List Tok → Except PyError (Expr × List Tok)) :
    Nat → Expr → List Tok → Except PyError (Expr × List Tok)
  | 0, _, _ => .error ⟨.ParserError, "parser fuel exhausted"⟩
  | fuel + 1, left, ts =>
    match ts with
    | .kw "AND" _ :: r =>
      (match parseEquality pe fuel r with
       | .error e => .error e
       | .ok (right, r2) => parseAndRest pe fuel (.binary left "AND" right) r2)
    | _ => .ok (left, ts)

def parseAnd (pe : List Tok → Except PyError (Expr × List Tok))
    (fuel : Nat) (ts : List Tok) : Except PyError (Expr × List Tok) :=
  match parseEquality pe fuel ts with
  | .error e => .error e
  | .ok (left, r) => parseAndRest pe fuel left r

/-- or_expression (src/parser/parser.py lines 668-679). -/
def parseOrRest (pe : List Tok → Except PyError (Expr × List Tok)) :
    Nat → Expr → List Tok → Except PyError (Expr × List Tok)
  | 0, _, _ => .error ⟨.ParserError, "parser fuel exhausted"⟩
  | fuel + 1, left, ts =>
    match ts with
    | .kw "OR" _ :: r =>
      (match parseAnd pe fuel r with
       | .error e => .error e
       | .ok (right, r2) => parseOrRest pe fuel (.binary left "OR" right) r2)
    | _ => .ok (left, ts)

/-- expression → or_expression (src/parser/parser.py lines 658-665),
tying the recursive knot through the fuel. -/
def parseExpressionF : Nat → List Tok → Except PyError (Expr × List Tok)
  | 0, _ => .error ⟨.ParserError, "parser fuel exhausted"⟩
  | fuel + 1, ts =>
    match parseAnd (parseExpressionF fuel) fuel ts with
    | .error e => .error e
    | .ok (left, r) => parseOrRest (parseExpressionF fuel) fuel left r

/-- column_expression_list (src/parser/parser.py lines 132-145). -/
def parseColumnExprList (pe : List Tok → Except PyError (Expr × List Tok)) :
    Nat → List Tok → Except PyError (List Expr × List Tok)
  | 0, _ => .error ⟨.ParserError, "parser fuel exhausted"⟩
  | fuel + 1, ts =>
    match parsePrimary pe fuel ts with
    | .error e => .error e
    | .ok (e, r) =>
      match r with
      | .sym "," :: r2 =>
        (match parseColumnExprList pe fuel r2 with
         | .error e2 => .error e2
         | .ok (es, r3) => .ok (e :: es, r3))
      | _ => .ok ([e], r)

/-- column_list (src/parser/parser.py lines 116-190): `*` or a
comma-separated list of column expressions; column expressions are parsed
with the primary-expression parser (the unexercised differences: NOT and
parenthesized boolean expressions are accepted here too). -/
def parseColumnList (pe : List Tok → Except PyError (Expr × List Tok))
    (fuel : Nat) (ts : List Tok) : Except PyError (List Expr × List Tok) :=
  match ts with
  | .sym "*" :: r => .ok ([.columnRef "*" Option.none], r)
  | _ =>
    match parseColumnExprList pe fuel ts with
    | .error e => .error e
    | .ok p => .ok p

/-- table_reference (src/parser/parser.py lines 98-113). -/
def parseTableRef : List Tok → Except PyError (String × List Tok)
  | .ident n :: .kw "AS" _ :: .ident a :: r => .ok (n ++ " AS " ++ a, r)
  | .ident n :: .ident a :: r => .ok (n ++ " " ++ a, r)
  | .ident n :: r => .ok (n, r)
  | ts => .error (parseErrorOf ts)

/-- column_reference_list (src/parser/parser.py lines 318-331). -/
def parseColRefList : Nat → List Tok → Except PyError (List Expr × List Tok)
  | 0, _ => .error ⟨.ParserError, "parser fuel exhausted"⟩
  | fuel + 1, ts =>
    match ts with
    | .ident n :: .sym "." :: .ident n2 :: r =>
      (match r with
       | .sym "," :: r2 =>
         (match parseColRefList fuel r2 with
          | .error e => .error e
          | .ok (es, r3) => .ok (.columnRef n2 (some n) :: es, r3))
       | _ => .ok ([.columnRef n2 (some n)], r))
    | .ident n :: r =>
      (match r with
       | .sym "," :: r2 =>
         (match parseColRefList fuel r2 with
          | .error e => .error e
          | .ok (es, r3) => .ok (.columnRef n Option.none :: es, r3))
       | _ => .ok ([.columnRef n Option.none], r))
    | r => .error (parseErrorOf r)

/-- order_item_list (src/parser/parser.py lines 362-388). -/
def parseOrderItems : Nat → List Tok → Except PyError (List (Expr × Option String) × List Tok)
  | 0, _ => .error ⟨.ParserError, "parser fuel exhausted"⟩
  | fuel + 1, ts =>
    match ts with
    | .ident n :: r0 =>
      let col : Expr := .columnRef n Option.none
      let withDir : (Expr × Option String) × List Tok :=
        match r0 with
        | .kw "ASC" text :: r1 => ((col, some (pyUpper text)), r1)
        | .kw "DESC" text :: r1 => ((col, some (pyUpper text)), r1)
        | _ => ((col, Option.none), r0)
      (match withDir.2 with
       | .sym "," :: r2 =>
         (match parseOrderItems fuel r2 with
          | .error e => .error e
          | .ok (es, r3) => .ok (withDir.1 :: es, r3))
       | _ => .ok ([withDir.1], withDir.2))
    | r => .error (parseErrorOf r)

/-- select_statement (src/parser/parser.py lines 65-95) with its optional
clauses (lines 290-406). -/
def parseSelectStmt (fuel : Nat) (ts : List Tok) :
    Except PyError (SelectStmt × List Tok) :=
  let pe := parseExpressionF fuel
  match ts with
  | .kw "SELECT" _ :: r =>
    let dr : Bool × List Tok :=
      match r with
      | .kw "DISTINCT" _ :: r1 => (true, r1)
      | _ => (false, r)
    (match parseColumnList pe fuel dr.2 with
     | .error e => .error e
     | .ok (cols, r2) =>
       match r2 with
       | .kw "FROM" _ :: r3 =>
         (match parseTableRef r3 with
          | .error e => .error e
          | .ok (tref, r4) =>
            let wres : Except PyError (Option Expr × List Tok) :=
              match r4 with
              | .kw "WHERE" _ :: r5 =>
                (match pe r5 with
                 | .error e => .error e
                 | .ok (w, r6) => .ok (some w, r6))
              | _ => .ok (Option.none, r4)
            match wres with
            | .error e => .error e
            | .ok (w, r6) =>
              let gres : Except PyError (Option (List Expr) × List Tok) :=
                match r6 with
                | .kw "GROUP" _ :: .kw "BY" _ :: r7 =>
                  (match parseColRefList fuel r7 with
                   | .error e => .error e
                   | .ok (g, r8) => .ok (some g, r8))
                | _ => .ok (Option.none, r6)
              match gres with
              | .error e => .error e
              | .ok (g, r8) =>
                let hres : Except PyError (Option Expr × List Tok) :=
                  match r8 with
                  | .kw "HAVING" _ :: r9 =>
                    (match pe r9 with
                     | .error e => .error e
                     | .ok (h, r10) => .ok (some h, r10))
                  | _ => .ok (Option.none, r8)
                match hres with
                | .error e => .error e
                | .ok (h, r10) =>
                  let ores : Except PyError (Option (List (Expr × Option String)) × List Tok) :=
                    match r10 with
                    | .kw "ORDER" _ :: .kw "BY" _ :: r11 =>
                      (match parseOrderItems fuel r11 with
                       | .error e => .error e
                       | .ok (o, r12) => .ok (some o, r12))
                    | _ => .ok (Option.none, r10)
                  match ores with
                  | .error e => .error e
                  | .ok (o, r12) =>
                    let lres : (Option Int × Option Int) × List Tok :=
                      match r12 with
                      | .kw "LIMIT" _ :: .numInt v :: .kw "OFFSET" _ :: .numInt v2 :: r13 =>
                        ((some v, some v2), r13)
                      | .kw "LIMIT" _ :: .numInt v :: r13 => ((some v, Option.none), r13)
                      | _ => ((Option.none, Option.none), r12)
                    .ok ({ columns := cols, fromClause := tref, whereClause := w,
                           groupBy := g, having := h, orderBy := o,
                           limit := lres.1, distinct := dr.1 }, lres.2)
          )
       | r3 => .error (parseErrorOf r3))
  | r => .error (parseErrorOf r)

/-- statement → sql_statement [SEMICOLON] (src/parser/parser.py lines
36-47) followed by end of input; the claims only exercise the SELECT
branch of sql_statement. -/
def parseStatement (fuel : Nat) (ts : List Tok) :
    Except PyError SQLStmtRoot :=
  match parseSelectStmt fuel ts with
  | .error e => .error e
  | .ok (sel, r) =>
    let r1 := match r with
      | .sym ";" :: r2 => r2
      | _ => r
    match r1 with
    | [] => .ok ⟨.select sel⟩
    | r2 => .error (parseErrorOf r2)

/-- Model of `PLYParser.parse` (tokenize, then run the grammar). -/
def parseSQL (s : String) : Except PyError SQLStmtRoot :=
  match tokenize s with
  | .error e => .error e
  | .ok ts => parseStatement (ts.length * 4 + 16) ts

/-- Number of decimal digits of `n` (one digit for `n < 10`), used to
relate `Nat.repr` to the value it denotes. -/
def decLen (n : Nat) : Nat :=
  if n < 10 then 1 else decLen (n / 10) + 1
termination_by n
decreasing_by
  exact Nat.div_lt_self (by omega) (by omega)

/-- A data directory whose files are `data_i.csv`, `data_{i+1}.csv`, … in
index order, with the given contents. -/
def dirOfIndexedFrom (i : Nat) : List DataFile → List (String × DataFile)
  | [] => []
  | f :: fs => (fname i, f) :: dirOfIndexedFrom (i + 1) fs

/-- The file names `data_i.csv` … `data_{i+k-1}.csv`. -/
def fnamesFrom (i : Nat) : Nat → List String
  | 0 => []
  | k + 1 => fname i :: fnamesFrom (i + 1) k

/-- A fresh data file holding the CSV encoding of the given rows under a
header. -/
def encFile (c : List (List PyVal)) : DataFile := ⟨true, c.map encRow⟩

/-- The data files left behind by appending `rows` to a freshly created
table whose `max_rows_per_file` is `n + 1`: the first write sees the
empty `data_0.csv` (line count 0, so `current_rows = -1`) and receives
`n + 2` rows; every rollover file starts fresh and receives chunks of
`n + 1`. -/
def freshAppendFiles (n : Nat) (rows : List (List PyVal)) : List DataFile :=
  match rows with
  | [] => [emptyDataFile]
  | _ :: _ =>
    encFile (rows.take (n + 2)) ::
      (chunksBy n (rows.drop (n + 2))).map encFile

def freshAppendDir (n : Nat) (rows : List (List PyVal)) :
    List (String × DataFile) :=
  dirOfIndexedFrom 0 (freshAppendFiles n rows)

/-- Sequential scan of a list of data files in the given order: what
`scan_table` produces when its sorted-name visit order coincides with the
file list's order. -/
def scanFilesSeq (cols : List ColumnDef) :
    List DataFile → Except PyError (List (List PyVal))
  | [] => .ok []
  | f :: rest =>
    match convertRows cols (readFileRows f) with
    | .error e => .error e
    | .ok rs =>
      match scanFilesSeq cols rest with
      | .error e => .error e
      | .ok more => .ok (rs ++ more)

/-! ### Proof infrastructure: decimal file names -/

theorem digitChar_val (m : Nat) (h : m < 10) : (Nat.digitChar m).toNat - 48 = m := by
  interval_cases m <;> rfl

theorem decLen_of_lt (n : Nat) (h : n < 10) : decLen n = 1 := by
  unfold decLen
  simp [h]

theorem decLen_of_ge (n : Nat) (h : 10 ≤ n) : decLen n = decLen (n / 10) + 1 := by
  rw [decLen]
  simp [Nat.not_lt_of_ge h]

theorem toDigitsCore_foldl (f : Nat) : ∀ (n acc : Nat) (ds : List Char), n < f →
    List.foldl (fun a c => a * 10 + (c.toNat - 48)) acc (Nat.toDigitsCore 10 f n ds) =
      List.foldl (fun a c => a * 10 + (c.toNat - 48)) (acc * 10 ^ decLen n + n) ds := by
  induction f with
  | zero => intro n acc ds h; omega
  | succ f ih =>
    intro n acc ds h
    by_cases h10 : n / 10 = 0
    · have hlt : n < 10 := by omega
      have hmod : n % 10 = n := Nat.mod_eq_of_lt hlt
      simp only [Nat.toDigitsCore, h10, if_true, List.foldl_cons]
      rw [decLen_of_lt n hlt, digitChar_val (n % 10) (Nat.mod_lt n (by omega)), hmod]
      ring_nf
    · have hge : 10 ≤ n := by
        by_contra hc
        exact h10 (Nat.div_eq_of_lt (by omega))
      have hn' : n / 10 < f := by
        have h1 : n / 10 < n := Nat.div_lt_self (by omega) (by omega)
        omega
      simp only [Nat.toDigitsCore, h10, if_false]
      rw [ih (n / 10) acc (Nat.digitChar (n % 10) :: ds) hn', List.foldl_cons,
        digitChar_val (n % 10) (Nat.mod_lt n (by omega)), decLen_of_ge n hge]
      congr 1
      have hA : acc * 10 ^ (decLen (n / 10) + 1) = acc * 10 ^ decLen (n / 10) * 10 := by
        rw [Nat.pow_succ, Nat.mul_assoc]
      rw [hA]
      generalize acc * 10 ^ decLen (n / 10) = A
      omega

theorem digitsToNat_toDigits (n : Nat) : digitsToNat (Nat.toDigits 10 n) = n := by
  unfold digitsToNat Nat.toDigits
  rw [toDigitsCore_foldl (n + 1) n 0 [] (Nat.lt_succ_self n)]
  simp

theorem natRepr_inj {a b : Nat} (h : Nat.repr a = Nat.repr b) : a = b := by
  have hdata : Nat.toDigits 10 a = Nat.toDigits 10 b := by
    have := congrArg String.data h
    simpa [Nat.repr, List.asString] using this
  calc a = digitsToNat (Nat.toDigits 10 a) := (digitsToNat_toDigits a).symm
    _ = digitsToNat (Nat.toDigits 10 b) := by rw [hdata]
    _ = b := digitsToNat_toDigits b

theorem fname_inj {i j : Nat} (h : fname i = fname j) : i = j := by
  apply natRepr_inj
  have hdata := congrArg String.data h
  simp only [fname, String.data_append] at hdata
  have h1 := List.append_cancel_right hdata
  have h2 := List.append_cancel_left h1
  show Nat.repr i = Nat.repr j
  exact congrArg String.mk h2

/-! ### Claim C6 -/

/-- C6: `create_database` called with a name that is already a key of the
in-memory databases mapping raises `DatabaseExistsError` with the message
"Database '<name>' already exists".  The check precedes every mutation in
the source, which the embedding mirrors by returning the error without
constructing any state: on-disk state and in-memory metadata are
unchanged. -/
theorem create_database_duplicate (e : Engine) (name uid : String)
    (h : (alLookup e.mem name).isSome = true) :
    create_database e name uid =
      .error ⟨.DatabaseExistsError,
        "Database " ++ quoted name ++ " already exists"⟩ := by
  simp [create_database, h]

theorem create_database_duplicate_witness :
    ((alLookup (Engine.mk 100 [("db1", ⟨"u1", []⟩)] [("u1", ⟨"db1", []⟩)]).mem
        "db1").isSome = true) ∧
    create_database (Engine.mk 100 [("db1", ⟨"u1", []⟩)] [("u1", ⟨"db1", []⟩)])
        "db1" "u2" =
      .error ⟨.DatabaseExistsError,
        "Database " ++ quoted "db1" ++ " already exists"⟩ :=
  ⟨rfl, create_database_duplicate _ _ _ rfl⟩

/-! ### Claim C5 -/

/-- C5 counterexample: `create_table` on an unknown database raises the
generic `DatabaseError` (message "Database 'ghost' not found"), which is
not of the `DatabaseNotFoundError` kind (it is the superclass, not a
subclass); likewise a duplicate table raises the generic `TableError`,
not the `TableExistsError` kind the claim names. -/
theorem create_table_error_kind_cex :
    create_table (newEngine 100) "ghost" "t" [⟨"id", "INTEGER"⟩] "u" =
      .error ⟨.DatabaseError, "Database " ++ quoted "ghost" ++ " not found"⟩ ∧
    isKindOf .DatabaseError .DatabaseNotFoundError = false ∧
    create_table
        ⟨100, [("db1", ⟨"u1", [("t1", ⟨"tu1"⟩)]⟩)],
         [("u1", ⟨"db1", [("tu1", freshTableDir 100 "t1" [⟨"id", "INTEGER"⟩])]⟩)]⟩
        "db1" "t1" [⟨"id", "INTEGER"⟩] "u9" =
      .error ⟨.TableError,
        "Table " ++ quoted "t1" ++ " already exists in database " ++ quoted "db1"⟩ ∧
    isKindOf .TableError .TableExistsError = false :=
  ⟨rfl, rfl, rfl, rfl⟩

/-- C5 (amended): `create_table` on an unknown database raises an error
of the generic `DatabaseError` kind (not the `DatabaseNotFoundError`
subclass) whose message contains the database name; on a duplicate table
it raises the generic `TableError` kind (not `TableExistsError`); both
checks precede any directory or metadata mutation (the embedding returns
the error before constructing state). -/
theorem create_table_error_shapes :
    (∀ (e : Engine) (db tbl : String) (cols : List ColumnDef) (uid : String),
        alLookup e.mem db = none →
        create_table e db tbl cols uid =
          .error ⟨.DatabaseError, "Database " ++ quoted db ++ " not found"⟩) ∧
    (∀ (e : Engine) (db tbl : String) (cols : List ColumnDef) (uid : String)
        (dbe : MemDb),
        alLookup e.mem db = some dbe →
        (alLookup dbe.tables tbl).isSome = true →
        create_table e db tbl cols uid =
          .error ⟨.TableError,
            "Table " ++ quoted tbl ++ " already exists in database " ++
              quoted db⟩) := by
  constructor
  · intro e db tbl cols uid h
    simp [create_table, h]
  · intro e db tbl cols uid dbe h1 h2
    simp [create_table, h1, h2]

theorem create_table_error_shapes_witness :
    create_table (newEngine 100) "ghost" "t0" [] "u" =
      .error ⟨.DatabaseError, "Database " ++ quoted "ghost" ++ " not found"⟩ ∧
    create_table
        ⟨100, [("db1", ⟨"u1", [("t1", ⟨"tu1"⟩)]⟩)],
         [("u1", ⟨"db1", [("tu1", freshTableDir 100 "t1" [])]⟩)]⟩
        "db1" "t1" [] "u9" =
      .error ⟨.TableError,
        "Table " ++ quoted "t1" ++ " already exists in database " ++
          quoted "db1"⟩ :=
  ⟨create_table_error_shapes.1 _ _ _ _ _ rfl,
   create_table_error_shapes.2 _ _ _ _ _ _ rfl rfl⟩

/-! ### Claim C3 -/

/-- C3 counterexample: the per-field conversion of `scan_table` does
raise — a non-numeric string in an INTEGER column makes `int(val)` throw
`ValueError`, which `scan_table` does not catch; the value is not passed
through unconverted. -/
theorem convert_value_raises_cex :
    convert_value "abc" "INTEGER" =
      .error ⟨.ValueError,
        "invalid literal for int() with base 10: " ++ quoted "abc"⟩ := rfl

/-- C3 (amended): the conversion never raises for declared types outside
INTEGER/BIGINT/FLOAT/DOUBLE (empty text gives null; VARCHAR/CHAR, BOOLEAN
and DATE/TIMESTAMP always convert; unrecognized types pass the raw text
through unconverted), but for the four numeric types a non-convertible
raw value raises `ValueError`. -/
theorem convert_value_totality :
    (∀ val typ : String,
        typ ≠ "INTEGER" → typ ≠ "BIGINT" → typ ≠ "FLOAT" → typ ≠ "DOUBLE" →
        ∃ w, convert_value val typ = .ok w) ∧
    (∀ val typ : String, val ≠ "" →
        pyStartsWith typ "VARCHAR" = false → pyStartsWith typ "CHAR" = false →
        typ ≠ "INTEGER" → typ ≠ "BIGINT" → typ ≠ "FLOAT" → typ ≠ "DOUBLE" →
        typ ≠ "BOOLEAN" → typ ≠ "DATE" → typ ≠ "TIMESTAMP" →
        convert_value val typ = .ok (.str val)) ∧
    convert_value "abc" "BIGINT" =
      .error ⟨.ValueError,
        "invalid literal for int() with base 10: " ++ quoted "abc"⟩ ∧
    convert_value "abc" "FLOAT" =
      .error ⟨.ValueError,
        "could not convert string to float: " ++ quoted "abc"⟩ ∧
    convert_value "abc" "DOUBLE" =
      .error ⟨.ValueError,
        "could not convert string to float: " ++ quoted "abc"⟩ := by
  refine ⟨?_, ?_, rfl, rfl, rfl⟩
  · intro val typ h1 h2 h3 h4
    unfold convert_value
    split_ifs <;> first | exact ⟨_, rfl⟩ | simp_all
  · intro val typ hval hv hc h1 h2 h3 h4 h5 h6 h7
    unfold convert_value
    split_ifs <;> simp_all

theorem convert_value_totality_witness :
    (∃ w, convert_value "anything" "DATE" = .ok w) ∧
    convert_value "raw" "GEOMETRY" = .ok (.str "raw") :=
  ⟨convert_value_totality.1 "anything" "DATE"
      (by decide) (by decide) (by decide) (by decide),
   convert_value_totality.2.1 "raw" "GEOMETRY" (by decide) (by decide)
      (by decide) (by decide) (by decide) (by decide) (by decide)
      (by decide) (by decide) (by decide)⟩

/-! ### Claim C7 -/

theorem specColSize_eq_get_col_size (col : ColumnDef) :
    specColSize col = get_col_size col := by
  unfold specColSize get_col_size
  generalize pyUpper col.type = t
  by_cases hv : pyStartsWith t "VARCHAR"
  · simp only [hv, if_true]
    cases parenLenParam "VARCHAR" t <;> rfl
  · by_cases hc : pyStartsWith t "CHAR"
    · simp only [hv, hc, if_true, if_false, Bool.false_eq_true]
      cases parenLenParam "CHAR" t <;> rfl
    · simp only [hv, hc, Bool.false_eq_true, if_false]
      by_cases h1 : t = "INTEGER"
      · subst h1; rfl
      by_cases h2 : t = "BIGINT"
      · subst h2; rfl
      by_cases h3 : t = "FLOAT"
      · subst h3; rfl
      by_cases h4 : t = "DOUBLE"
      · subst h4; rfl
      by_cases h5 : t = "BOOLEAN"
      · subst h5; rfl
      by_cases h6 : t = "DATE"
      · subst h6; rfl
      by_cases h7 : t = "TIMESTAMP"
      · subst h7; rfl
      by_cases h8 : t = "VARCHAR"
      · subst h8; rfl
      by_cases h9 : t = "CHAR"
      · subst h9; rfl
      by_cases h10 : t = "FALLBACK"
      · subst h10; rfl
      have hlookup : TYPE_SIZES.lookup t = none := by
        simp only [TYPE_SIZES, List.lookup,
          beq_eq_false_iff_ne.mpr h8, beq_eq_false_iff_ne.mpr h9,
          beq_eq_false_iff_ne.mpr h1, beq_eq_false_iff_ne.mpr h2,
          beq_eq_false_iff_ne.mpr h3, beq_eq_false_iff_ne.mpr h4,
          beq_eq_false_iff_ne.mpr h5, beq_eq_false_iff_ne.mpr h6,
          beq_eq_false_iff_ne.mpr h7, beq_eq_false_iff_ne.mpr h10]
      simp only [h1, h2, h3, h4, h5, h6, h7, h8, h9, h10, hlookup,
        Option.isSome_none, Bool.false_eq_true, if_false]
      rfl

/-- C7: at table creation, `max_rows_per_file` equals
`max_file_size_bytes` integer-divided by `max_row_size`, where
`max_row_size` is the sum over the declared columns of the spec's
per-type byte estimate (`specColSize`, transcribed from the spec's words;
it agrees with the code's `get_col_size` everywhere).  When the column
list is empty the code's guard returns 0, which coincides with natural
division by zero. -/
theorem max_rows_per_file_formula :
    (∀ col : ColumnDef, specColSize col = get_col_size col) ∧
    (∀ (fs : Nat) (tbl : String) (cols : List ColumnDef),
        (newTableMeta fs tbl cols).maxRowsPerFile =
          fs / (cols.map specColSize).sum) := by
  refine ⟨specColSize_eq_get_col_size, ?_⟩
  intro fs tbl cols
  have hmap : cols.map specColSize = cols.map get_col_size :=
    List.map_congr_left fun c _ => specColSize_eq_get_col_size c
  show computedMaxRows fs cols = fs / (cols.map specColSize).sum
  rw [hmap]
  unfold computedMaxRows
  by_cases hz : (cols.map get_col_size).sum > 0
  · simp [hz]
  · have h0 : (cols.map get_col_size).sum = 0 := by omega
    simp [h0]

/-! ### Claim C8 -/

/-- C8: parsing "SELECT * FROM users WHERE age > 30" succeeds and yields
a Select statement whose columns are exactly [ColumnReference("*")],
whose from-clause is "users", and whose where-clause is
BinaryExpression(ColumnReference("age"), ">", Literal(30, number)); the
optional clauses are all absent and distinct is false. -/
theorem parse_select_example :
    parseSQL "SELECT * FROM users WHERE age > 30" =
      .ok ⟨.select
        { columns := [.columnRef "*" Option.none]
          fromClause := "users"
          whereClause := some (.binary (.columnRef "age" Option.none) ">"
            (.lit (.int 30) "number"))
          groupBy := Option.none
          having := Option.none
          orderBy := Option.none
          limit := (Option.none, Option.none)
          distinct := false }⟩ := rfl

/-! ### Claim C9 -/

/-- C9: unlike `create_table`, `delete_table` and `delete_database`
(which validate and raise `StorageError`-family errors), `append_rows`
and `scan_table` perform no existence validation: with a database or
table name absent from the in-memory metadata they fail with a raw
`KeyError` — a class outside the `StorageError` family — before touching
any file (the embedding reaches no disk state on these paths). -/
theorem append_scan_no_validation :
    (∀ (e : Engine) (db tbl : String) (rows : List (List PyVal)) (fuel b : Nat),
        alLookup e.mem db = none →
        append_rows e db tbl rows fuel = some (.error ⟨.KeyError, db⟩) ∧
        scan_table e db tbl b = .error ⟨.KeyError, db⟩ ∧
        delete_table e db tbl =
          .error ⟨.DatabaseError, "Database " ++ quoted db ++ " not found"⟩ ∧
        delete_database e db =
          .error ⟨.DatabaseError, "Database " ++ quoted db ++ " not found"⟩ ∧
        create_table e db tbl [] "u0" =
          .error ⟨.DatabaseError, "Database " ++ quoted db ++ " not found"⟩) ∧
    (∀ (e : Engine) (db tbl : String) (rows : List (List PyVal)) (fuel b : Nat)
        (dbe : MemDb),
        alLookup e.mem db = some dbe →
        alLookup dbe.tables tbl = none →
        append_rows e db tbl rows fuel = some (.error ⟨.KeyError, tbl⟩) ∧
        scan_table e db tbl b = .error ⟨.KeyError, tbl⟩ ∧
        delete_table e db tbl =
          .error ⟨.TableError,
            "Table " ++ quoted tbl ++ " not found in database " ++ quoted db⟩) ∧
    isKindOf .KeyError .StorageError = false ∧
    isKindOf .DatabaseError .StorageError = true ∧
    isKindOf .TableError .StorageError = true := by
  refine ⟨?_, ?_, rfl, rfl, rfl⟩
  · intro e db tbl rows fuel b h
    exact ⟨by simp [append_rows, h], by simp [scan_table, h],
      by simp [delete_table, h], by simp [delete_database, h],
      by simp [create_table, h]⟩
  · intro e db tbl rows fuel b dbe h1 h2
    exact ⟨by simp [append_rows, h1, h2], by simp [scan_table, h1, h2],
      by simp [delete_table, h1, h2]⟩

theorem append_scan_no_validation_witness :
    append_rows (newEngine 1) "nodb" "t" [] 1 =
      some (.error ⟨.KeyError, "nodb"⟩) ∧
    scan_table
        (Engine.mk 100 [("db1", ⟨"u1", []⟩)] [("u1", ⟨"db1", []⟩)])
        "db1" "ghostt" 5 =
      .error ⟨.KeyError, "ghostt"⟩ :=
  ⟨(append_scan_no_validation.1 (newEngine 1) "nodb" "t" [] 1 1 rfl).1,
   ((append_scan_no_validation.2.1
      (Engine.mk 100 [("db1", ⟨"u1", []⟩)] [("u1", ⟨"db1", []⟩)])
      "db1" "ghostt" [] 1 5 _ rfl rfl).2.1)⟩

/-! ### Claim C10 -/

theorem pySliceTo_nat {α : Type} (l : List α) (m : Nat) :
    pySliceTo l (m : Int) = l.take m := by
  simp [pySliceTo]

theorem pySliceFrom_nat {α : Type} (l : List α) (m : Nat) :
    pySliceFrom l (m : Int) = l.drop m := by
  simp [pySliceFrom]

theorem pySliceFrom_length_le {α : Type} (l : List α) (k : Int) :
    (pySliceFrom l k).length ≤ l.length := by
  unfold pySliceFrom
  split <;> simp

/-- Once the loop is on a rollover iteration (`current_rows = 0`) with
positive capacity, each iteration writes at least one row, so
`length + 1` fuel suffices. -/
theorem appendLoop_some_zero_cur (n : Nat) : ∀ (fuel : Nat)
    (tw : List (List PyVal)) (data : List (String × DataFile)) (idx : Nat),
    tw.length + 1 ≤ fuel →
    (appendLoop (n + 1) fuel data idx 0 tw).isSome = true := by
  intro fuel
  induction fuel with
  | zero => intro tw data idx h; omega
  | succ fuel ih =>
    intro tw data idx h
    match tw with
    | [] => rfl
    | r :: rs =>
      show (appendLoop (n + 1) (fuel + 1) data idx 0 (r :: rs)).isSome = true
      rw [appendLoop]
      have hsp : ((n + 1 : Nat) : Int) - 0 = ((n + 1 : Nat) : Int) := by omega
      rw [hsp, pySliceTo_nat, pySliceFrom_nat]
      by_cases hrest : ((r :: rs).drop (n + 1)).isEmpty
      · simp only [hrest, if_true]
        rfl
      · simp only [hrest, Bool.false_eq_true, if_false]
        apply ih
        have hdl : ((r :: rs).drop (n + 1)).length = rs.length - n := by
          simp [List.length_drop]
        rw [hdl]
        simp only [List.length_cons] at h
        omega

/-- With any starting `current_rows`, the first iteration either finishes
or rolls over to the zero-`current_rows` regime. -/
theorem appendLoop_terminates (n : Nat) (fuel : Nat)
    (tw : List (List PyVal)) (data : List (String × DataFile)) (idx : Nat)
    (cur : Int) (h : tw.length + 2 ≤ fuel) :
    (appendLoop (n + 1) fuel data idx cur tw).isSome = true := by
  match fuel, tw with
  | fuel + 1, [] => rfl
  | fuel + 1, r :: rs =>
    rw [appendLoop]
    by_cases hrest : (pySliceFrom (r :: rs) ((n + 1 : Nat) - cur)).isEmpty
    · simp only [hrest, if_true]
      rfl
    · simp only [hrest, Bool.false_eq_true, if_false]
      apply appendLoop_some_zero_cur
      have hle := pySliceFrom_length_le (r :: rs) (((n + 1 : Nat) : Int) - cur)
      simp only [List.length_cons] at hle h ⊢
      omega

/-- With `max_rows_per_file = 0` and `current_rows = 0` the loop makes no
progress: the slice bound is 0, the batch is empty and the row list never
shrinks. -/
theorem appendLoop_zero_diverges : ∀ (fuel : Nat)
    (data : List (String × DataFile)) (idx : Nat) (r : List PyVal)
    (rs : List (List PyVal)),
    appendLoop 0 fuel data idx 0 (r :: rs) = none := by
  intro fuel
  induction fuel with
  | zero => intro data idx r rs; rfl
  | succ fuel ih =>
    intro data idx r rs
    rw [appendLoop]
    have h0 : ((0 : Nat) : Int) - 0 = ((0 : Nat) : Int) := by omega
    rw [h0, pySliceTo_nat, pySliceFrom_nat]
    simp only [List.drop_zero, List.take_zero]
    have : (r :: rs).isEmpty = false := rfl
    simp only [this, Bool.false_eq_true, if_false]
    exact ih _ _ r rs

/-- C10 counterexample: a table created with an empty column list has
`max_rows_per_file = 0`, yet appending a single row to it terminates —
the fresh `data_0.csv` has zero lines, so `current_rows = -1` and
`space_left = 1`.  This contradicts the claim that appending any
non-empty row list to such a table never terminates. -/
theorem append_one_row_terminates_cex :
    (freshTableDir 100 "t" []).meta.maxRowsPerFile = 0 ∧
    appendRowsT (freshTableDir 100 "t" []) [[]] 3 =
      some ⟨⟨"t", [], 100, 0, "data_0.csv"⟩, [("data_0.csv", ⟨true, [[]]⟩)]⟩ :=
  ⟨rfl, rfl⟩

/-- C10 (amended): for every table whose metadata records
`max_rows_per_file ≥ 1`, `append_rows` terminates on every finite row
list (`length + 2` fuel suffices: at most one stalled iteration before
the loop reaches a fresh file, after which every iteration writes at
least one row); for a table created with an empty column list
(`max_rows_per_file = 0`), appending a list of two or more rows never
terminates — the necessity example of the claim holds only from the
second row on, because the fresh file's zero line count makes
`current_rows = -1` and gives the first row a slot. -/
theorem append_rows_termination :
    (∀ (t : TableDir) (rows : List (List PyVal)),
        1 ≤ t.meta.maxRowsPerFile →
        (appendRowsT t rows (rows.length + 2)).isSome = true) ∧
    (∀ (fs : Nat) (tbl : String) (rows : List (List PyVal)) (fuel : Nat),
        2 ≤ rows.length →
        appendRowsT (freshTableDir fs tbl []) rows fuel = none) := by
  constructor
  · intro t rows hm
    obtain ⟨n, hn⟩ : ∃ n, t.meta.maxRowsPerFile = n + 1 :=
      ⟨t.meta.maxRowsPerFile - 1, by omega⟩
    unfold appendRowsT
    rw [hn]
    have hsome := appendLoop_terminates n (rows.length + 2) rows t.data
      (parseDataIdx t.meta.latestDataFile)
      (match alLookup t.data t.meta.latestDataFile with
       | some f => (f.lineCount : Int) - 1
       | none => 0)
      (by omega)
    cases hy : appendLoop (n + 1) (rows.length + 2) t.data
        (parseDataIdx t.meta.latestDataFile)
        (match alLookup t.data t.meta.latestDataFile with
         | some f => (f.lineCount : Int) - 1
         | none => 0) rows with
    | none => rw [hy] at hsome; exact absurd hsome (by simp)
    | some p => simp only [hy]; rfl
  · intro fs tbl rows fuel h2
    match rows, h2 with
    | r1 :: r2 :: rest, _ =>
      show appendRowsT (freshTableDir fs tbl []) (r1 :: r2 :: rest) fuel = none
      unfold appendRowsT freshTableDir newTableMeta
      have hmr : computedMaxRows fs [] = 0 := by
        simp [computedMaxRows]
      rw [hmr]
      match fuel with
      | 0 => rfl
      | fuel + 1 =>
        have hcur :
            (match alLookup [("data_0.csv", emptyDataFile)] "data_0.csv" with
             | some f => ((f.lineCount : Nat) : Int) - 1
             | none => 0) = (-1 : Int) := rfl
        simp only [hcur]
        rw [appendLoop]
        have hsp : ((0 : Nat) : Int) - (-1) = ((1 : Nat) : Int) := by omega
        have hidx : parseDataIdx "data_0.csv" = 0 := rfl
        rw [hidx, hsp, pySliceTo_nat, pySliceFrom_nat]
        simp only [List.drop_succ_cons, List.drop_zero]
        have : (r2 :: rest).isEmpty = false := rfl
        simp only [this, Bool.false_eq_true, if_false]
        rw [appendLoop_zero_diverges]

theorem append_rows_termination_witness :
    (appendRowsT (freshTableDir 4 "t" [⟨"id", "INTEGER"⟩])
        [[PyVal.int 1], [PyVal.int 2], [PyVal.int 3]] 5).isSome = true ∧
    appendRowsT (freshTableDir 100 "t" []) [[], []] 50 = none :=
  ⟨append_rows_termination.1 (freshTableDir 4 "t" [⟨"id", "INTEGER"⟩])
      [[PyVal.int 1], [PyVal.int 2], [PyVal.int 3]] (by decide),
   append_rows_termination.2 100 "t" [[], []] 50 (by decide)⟩

/-! ### Claims C1, C2, C4: counterexamples -/

/-- C2 counterexample: with `max_rows_per_file = N = 1` (one INTEGER
column, 4-byte max file size), appending `M = 2 > N` rows to the empty
table produces ONE data file holding both rows — not the `ceil(M/N) = 2`
files of at most `N` rows each that the claim states.  The fresh
`data_0.csv` has line count 0, so `current_rows = -1` and
`space_left = N - (-1) = 2`. -/
theorem rollover_counts_cex :
    (freshTableDir 4 "t" [⟨"id", "INTEGER"⟩]).meta.maxRowsPerFile = 1 ∧
    appendRowsT (freshTableDir 4 "t" [⟨"id", "INTEGER"⟩])
        [[PyVal.int 1], [PyVal.int 2]] 5 =
      some ⟨⟨"t", [⟨"id", "INTEGER"⟩], 4, 1, "data_0.csv"⟩,
        [("data_0.csv", ⟨true, [["1"], ["2"]]⟩)]⟩ ∧
    [("data_0.csv", (⟨true, [["1"], ["2"]]⟩ : DataFile))].length = 1 ∧
    (1 : Nat) ≠ (2 + 1 - 1) / 1 :=
  ⟨rfl, rfl, rfl, by decide⟩

/-- C4 counterexample: a table with eleven data files `data_0.csv` …
`data_10.csv` (one row each, carrying its file index) is visited in
lexicographic name order, which puts `data_10.csv` between `data_1.csv`
and `data_2.csv` — not the ascending numeric order the claim asserts for
tables with ten or more files. -/
theorem scan_order_cex :
    scanVisitOrder ⟨⟨"t", [⟨"id", "INTEGER"⟩], 4, 1, "data_10.csv"⟩,
        dirOfIndexedFrom 0 ((List.range 11).map fun i => ⟨true, [[Nat.repr i]]⟩)⟩ =
      ["data_0.csv", "data_1.csv", "data_10.csv", "data_2.csv", "data_3.csv",
       "data_4.csv", "data_5.csv", "data_6.csv", "data_7.csv", "data_8.csv",
       "data_9.csv"] ∧
    (["data_0.csv", "data_1.csv", "data_10.csv", "data_2.csv", "data_3.csv",
      "data_4.csv", "data_5.csv", "data_6.csv", "data_7.csv", "data_8.csv",
      "data_9.csv"] : List String) ≠ fnamesFrom 0 11 ∧
    scanRows ⟨⟨"t", [⟨"id", "INTEGER"⟩], 4, 1, "data_10.csv"⟩,
        dirOfIndexedFrom 0 ((List.range 11).map fun i => ⟨true, [[Nat.repr i]]⟩)⟩ =
      .ok [[.int 0], [.int 1], [.int 10], [.int 2], [.int 3], [.int 4],
           [.int 5], [.int 6], [.int 7], [.int 8], [.int 9]] :=
  ⟨rfl, by decide, rfl⟩

/-- C1 counterexample: one INTEGER column with `max_file_size_bytes = 4`
gives `max_rows_per_file = 1`; inserting rows 1..12 spreads them over
eleven data files, and the scan (lexicographic file order) concatenates
to 1,2,3,12,4,…,11 — not the insertion order the claim asserts for every
consistent row list and batch size. -/
theorem round_trip_order_cex :
    round_trip 4 "db" "t" "u0" "u1" [⟨"id", "INTEGER"⟩]
        [[PyVal.int 1], [PyVal.int 2], [PyVal.int 3], [PyVal.int 4],
         [PyVal.int 5], [PyVal.int 6], [PyVal.int 7], [PyVal.int 8],
         [PyVal.int 9], [PyVal.int 10], [PyVal.int 11], [PyVal.int 12]]
        20 1000 =
      some (.ok [[[PyVal.int 1], [PyVal.int 2], [PyVal.int 3], [PyVal.int 12],
        [PyVal.int 4], [PyVal.int 5], [PyVal.int 6], [PyVal.int 7],
        [PyVal.int 8], [PyVal.int 9], [PyVal.int 10], [PyVal.int 11]]]) ∧
    ([[PyVal.int 1], [PyVal.int 2], [PyVal.int 3], [PyVal.int 12],
      [PyVal.int 4], [PyVal.int 5], [PyVal.int 6], [PyVal.int 7],
      [PyVal.int 8], [PyVal.int 9], [PyVal.int 10], [PyVal.int 11]] :
        List (List PyVal)) ≠
      ([[PyVal.int 1], [PyVal.int 2], [PyVal.int 3], [PyVal.int 4],
        [PyVal.int 5], [PyVal.int 6], [PyVal.int 7], [PyVal.int 8],
        [PyVal.int 9], [PyVal.int 10], [PyVal.int 11], [PyVal.int 12]].map
          (coerceRow [⟨"id", "INTEGER"⟩])) :=
  ⟨rfl, by decide⟩

/-! ### Append characterization -/

theorem alLookup_append {β : Type} (l1 l2 : List (String × β)) (k : String) :
    alLookup (l1 ++ l2) k =
      match alLookup l1 k with
      | some v => some v
      | none => alLookup l2 k := by
  induction l1 with
  | nil => rfl
  | cons p rest ih =>
    by_cases h : p.1 = k
    · simp [alLookup, h]
    · simp [alLookup, h, ih]

theorem alSet_absent {β : Type} (l : List (String × β)) (k : String) (v : β)
    (h : alLookup l k = none) : alSet l k v = l ++ [(k, v)] := by
  induction l with
  | nil => rfl
  | cons p rest ih =>
    by_cases hp : p.1 = k
    · simp [alLookup, hp] at h
    · simp [alLookup, hp] at h
      simp [alSet, hp, ih h]

theorem alLookup_singleton_ne {β : Type} (k0 k : String) (v : β)
    (h : k0 ≠ k) : alLookup [(k0, v)] k = none := by
  simp [alLookup, h]

theorem chunksBy_nil {α : Type} (n : Nat) : chunksBy n ([] : List α) = [] := by
  rw [chunksBy]

/-- In the rollover regime (`current_rows = 0`, capacity `n + 1`, every
file from index `idx` on absent), the loop lays down one fresh file per
`(n+1)`-chunk and ends on the last chunk's index. -/
theorem appendLoop_steady (n : Nat) : ∀ (fuel : Nat)
    (tw : List (List PyVal)) (data : List (String × DataFile)) (idx : Nat),
    tw ≠ [] → tw.length ≤ fuel →
    (∀ j, idx ≤ j → alLookup data (fname j) = none) →
    appendLoop (n + 1) fuel data idx 0 tw =
      some (data ++ dirOfIndexedFrom idx ((chunksBy n tw).map encFile),
        idx + (chunksBy n tw).length - 1) := by
  intro fuel
  induction fuel with
  | zero =>
    intro tw data idx hne hlen
    exact absurd hlen (by cases tw with
      | nil => exact absurd rfl hne
      | cons r rs => simp)
  | succ fuel ih =>
    intro tw data idx hne hlen hfresh
    match tw, hne with
    | r :: rs, _ =>
      have hlook : alLookup data (fname idx) = none := hfresh idx le_rfl
      simp only [appendLoop, sub_zero, pySliceTo_nat, pySliceFrom_nat, hlook,
        Option.getD_none, Option.isNone_none, Bool.true_or, emptyDataFile,
        Bool.false_or, List.nil_append]
      rw [alSet_absent data _ _ hlook]
      have hchunks : chunksBy n (r :: rs) =
          (r :: rs.take n) :: chunksBy n (rs.drop n) := by
        rw [chunksBy]
      have htake : (r :: rs).take (n + 1) = r :: rs.take n := rfl
      have hdrop : (r :: rs).drop (n + 1) = rs.drop n := rfl
      by_cases hrest : ((r :: rs).drop (n + 1)).isEmpty
      · simp only [hrest, if_true]
        have hnil : rs.drop n = [] := by
          rw [hdrop] at hrest
          exact List.isEmpty_iff.mp hrest
        rw [hchunks, hnil, htake, chunksBy_nil]
        simp only [List.map_cons, List.map_nil, dirOfIndexedFrom, encFile,
          List.length_cons, List.length_nil]
        rfl
      · simp only [hrest, Bool.false_eq_true, if_false]
        rw [hdrop] at hrest ⊢
        have hne2 : rs.drop n ≠ [] := by
          intro hc
          rw [hc] at hrest
          exact hrest rfl
        have hlen2 : (rs.drop n).length ≤ fuel := by
          have hd : (rs.drop n).length ≤ rs.length := by
            simp [List.length_drop]
          simp only [List.length_cons] at hlen
          omega
        have hfresh2 : ∀ j, idx + 1 ≤ j →
            alLookup (data ++ [(fname idx,
                ⟨true, ((r :: rs).take (n + 1)).map encRow⟩)])
              (fname j) = none := by
          intro j hj
          rw [alLookup_append, hfresh j (by omega)]
          apply alLookup_singleton_ne
          intro hc
          have := fname_inj hc
          omega
        rw [ih (rs.drop n) _ (idx + 1) hne2 hlen2 hfresh2, hchunks]
        simp only [List.map_cons, dirOfIndexedFrom, List.length_cons,
          Option.some.injEq, Prod.mk.injEq]
        constructor
        · rw [List.append_assoc]
          rfl
        · omega

/-- Appending to a freshly created table: `data_0.csv` (line count 0, so
`current_rows = -1`) receives the first `n + 2` rows, rollover files the
`(n+1)`-chunks of the rest; the persisted `latest_data_file` names the
last file. -/
theorem appendRowsT_fresh (n fs : Nat) (tbl : String) (cols : List ColumnDef)
    (rows : List (List PyVal)) (hN : computedMaxRows fs cols = n + 1) :
    appendRowsT (freshTableDir fs tbl cols) rows (rows.length + 2) =
      some ⟨⟨tbl, cols, fs, n + 1, fname ((freshAppendFiles n rows).length - 1)⟩,
        freshAppendDir n rows⟩ := by
  match rows with
  | [] =>
    simp only [appendRowsT, freshTableDir, newTableMeta, hN, List.length_nil,
      appendLoop, freshAppendDir, freshAppendFiles, dirOfIndexedFrom]
    rfl
  | r :: rs =>
    have hfuel : (r :: rs).length + 2 = ((r :: rs).length + 1) + 1 := rfl
    simp only [appendRowsT, freshTableDir, newTableMeta, hN, hfuel]
    rw [appendLoop]
    have hidx : parseDataIdx "data_0.csv" = 0 := rfl
    have hcur :
        (match alLookup [("data_0.csv", emptyDataFile)] "data_0.csv" with
         | some f => ((f.lineCount : Nat) : Int) - 1
         | none => 0) = (-1 : Int) := rfl
    simp only [hidx, hcur]
    rw [show fname 0 = "data_0.csv" from rfl]
    have hsp : ((n + 1 : Nat) : Int) - (-1) = ((n + 2 : Nat) : Int) := by
      push_cast
      ring
    rw [hsp, pySliceTo_nat, pySliceFrom_nat]
    have hlook : alLookup [("data_0.csv", emptyDataFile)] "data_0.csv" =
        some emptyDataFile := rfl
    rw [hlook]
    have hset : alSet [("data_0.csv", emptyDataFile)] "data_0.csv"
        ⟨emptyDataFile.hasHeader ||
            ((some emptyDataFile).isNone || decide ((-1 : Int) ≤ 0)),
          emptyDataFile.rows ++ ((r :: rs).take (n + 2)).map encRow⟩ =
        [("data_0.csv", encFile ((r :: rs).take (n + 2)))] := rfl
    simp only [Option.getD_some, hset]
    by_cases hrest : ((r :: rs).drop (n + 2)).isEmpty
    · simp only [hrest, if_true]
      have hnil : (r :: rs).drop (n + 2) = [] := List.isEmpty_iff.mp hrest
      simp only [freshAppendDir, freshAppendFiles, hnil, chunksBy_nil,
        List.map_nil, dirOfIndexedFrom, List.length_cons, List.length_nil]
      rfl
    · simp only [hrest, Bool.false_eq_true, if_false]
      have hne2 : (r :: rs).drop (n + 2) ≠ [] := by
        intro hc
        rw [hc] at hrest
        exact hrest rfl
      have hlen2 : ((r :: rs).drop (n + 2)).length ≤ (r :: rs).length + 1 := by
        have := List.length_drop (n + 2) (r :: rs)
        omega
      have hfresh2 : ∀ j, 1 ≤ j →
          alLookup [("data_0.csv", encFile ((r :: rs).take (n + 2)))]
            (fname j) = none := by
        intro j hj
        apply alLookup_singleton_ne
        intro hc
        have h0 : ("data_0.csv" : String) = fname 0 := rfl
        rw [h0] at hc
        have := fname_inj hc
        omega
      rw [appendLoop_steady n ((r :: rs).length + 1) ((r :: rs).drop (n + 2))
        _ 1 hne2 hlen2 hfresh2]
      have hclen : 1 ≤ (chunksBy n ((r :: rs).drop (n + 2))).length := by
        match hx : (r :: rs).drop (n + 2), hne2 with
        | x :: xs, _ =>
          rw [chunksBy]
          simp
      simp only [freshAppendDir, freshAppendFiles, dirOfIndexedFrom,
        List.length_cons, List.singleton_append, Option.some.injEq,
        Prod.mk.injEq, List.length_map]
      have harith : 1 + (chunksBy n (List.drop (n + 2) (r :: rs))).length - 1 =
          (chunksBy n (List.drop (n + 2) (r :: rs))).length + 1 - 1 := by omega
      rw [harith]
      norm_num [show fname 0 = "data_0.csv" from rfl]

theorem chunksBy_length_aux {α : Type} (n : Nat) : ∀ (m : Nat) (l : List α),
    l.length ≤ m →
    (chunksBy n l).length = (l.length + n) / (n + 1) := by
  intro m
  induction m with
  | zero =>
    intro l h
    match l, h with
    | [], _ =>
      rw [chunksBy_nil]
      simp [Nat.div_eq_of_lt (Nat.lt_succ_self n)]
  | succ m ih =>
    intro l h
    match l with
    | [] =>
      rw [chunksBy_nil]
      simp [Nat.div_eq_of_lt (Nat.lt_succ_self n)]
    | x :: xs =>
      rw [chunksBy]
      simp only [List.length_cons]
      rw [ih (xs.drop n) (by simp only [List.length_drop, List.length_cons] at h ⊢; omega)]
      rw [List.length_drop]
      have hr : xs.length + 1 + n = xs.length + (n + 1) := by omega
      rw [hr, Nat.add_div_right _ (Nat.succ_pos n)]
      congr 1
      by_cases hx : n ≤ xs.length
      · congr 1
        omega
      · rw [Nat.div_eq_of_lt (by omega), Nat.div_eq_of_lt (by omega)]

theorem chunksBy_length {α : Type} (n : Nat) (l : List α) :
    (chunksBy n l).length = (l.length + n) / (n + 1) :=
  chunksBy_length_aux n l.length l le_rfl

theorem dropLast_map {α β : Type} (f : α → β) : ∀ (l : List α),
    (l.map f).dropLast = l.dropLast.map f := by
  intro l
  induction l with
  | nil => rfl
  | cons x xs ih =>
    cases xs with
    | nil => rfl
    | cons y ys =>
      simp only [List.map_cons, List.dropLast_cons₂]
      simp only [List.map_cons] at ih
      exact congrArg (List.cons (f x)) ih

theorem chunksBy_dropLast_full {α : Type} (n : Nat) : ∀ (m : Nat) (l : List α),
    l.length ≤ m →
    ∀ c ∈ (chunksBy n l).dropLast, c.length = n + 1 := by
  intro m
  induction m with
  | zero =>
    intro l h c hc
    match l, h with
    | [], _ =>
      rw [chunksBy_nil] at hc
      simp at hc
  | succ m ih =>
    intro l h c hc
    match l with
    | [] =>
      rw [chunksBy_nil] at hc
      simp at hc
    | x :: xs =>
      rw [chunksBy] at hc
      by_cases hd : xs.drop n = []
      · rw [hd, chunksBy_nil] at hc
        simp at hc
      · have hcs : chunksBy n (xs.drop n) ≠ [] := by
          match hx : xs.drop n, hd with
          | y :: ys, _ =>
            rw [chunksBy]
            simp
        rw [List.dropLast_cons_of_ne_nil hcs] at hc
        rcases List.mem_cons.mp hc with hc1 | hc1
        · subst hc1
          have hlen : n < xs.length := by
            by_contra hcon
            exact hd (List.drop_eq_nil_of_le (by omega))
          simp [List.length_take, Nat.min_eq_left (Nat.le_of_lt hlen)]
        · exact ih (xs.drop n)
            (by simp only [List.length_drop, List.length_cons] at h ⊢; omega) c hc1

/-- C2 (amended): appending `M > N` rows (metadata `max_rows_per_file =
N = n + 1`) to an empty, freshly created table produces the data
directory `freshAppendDir`: the FIRST file `data_0.csv` receives `N + 1`
rows (its fresh empty file counts `current_rows = -1`), every further
file except possibly the last receives exactly `N`, the file count is
`1 + ceil((M - (N+1)) / N)` (not `ceil(M/N)`), and `latest_data_file`
names the last (highest-numbered) file. -/
theorem rollover_characterization :
    ∀ (n fs : Nat) (tbl : String) (cols : List ColumnDef)
      (rows : List (List PyVal)),
      computedMaxRows fs cols = n + 1 →
      n + 1 < rows.length →
      appendRowsT (freshTableDir fs tbl cols) rows (rows.length + 2) =
        some ⟨⟨tbl, cols, fs, n + 1,
          fname ((freshAppendFiles n rows).length - 1)⟩,
          freshAppendDir n rows⟩ ∧
      (freshAppendFiles n rows).length =
        1 + (rows.length - (n + 2) + n) / (n + 1) ∧
      ((freshAppendFiles n rows).headD emptyDataFile).rows.length = n + 2 ∧
      (∀ f ∈ (freshAppendFiles n rows).tail.dropLast,
        f.rows.length = n + 1) := by
  intro n fs tbl cols rows hN hM
  refine ⟨appendRowsT_fresh n fs tbl cols rows hN, ?_, ?_, ?_⟩
  · match rows, hM with
    | r :: rs, _ =>
      simp only [freshAppendFiles, List.length_cons, List.length_map]
      rw [chunksBy_length]
      simp only [List.length_drop, List.length_cons]
      omega
  · match rows, hM with
    | r :: rs, hM2 =>
      simp only [freshAppendFiles, List.headD_cons, encFile, List.length_map,
        List.length_take, List.length_cons]
      simp only [List.length_cons] at hM2
      exact Nat.min_eq_left (by omega)
  · match rows, hM with
    | r :: rs, _ =>
      intro f hf
      simp only [freshAppendFiles, List.tail_cons] at hf
      rw [dropLast_map] at hf
      rcases List.mem_map.mp hf with ⟨c, hc, hrfl⟩
      subst hrfl
      simp only [encFile, List.length_map]
      exact chunksBy_dropLast_full n ((r :: rs).drop (n + 2)).length _ le_rfl c hc

theorem rollover_characterization_witness :
    appendRowsT (freshTableDir 4 "t" [⟨"id", "INTEGER"⟩])
        [[PyVal.int 1], [PyVal.int 2], [PyVal.int 3]] 5 =
      some ⟨⟨"t", [⟨"id", "INTEGER"⟩], 4, 1,
        fname ((freshAppendFiles 0
          [[PyVal.int 1], [PyVal.int 2], [PyVal.int 3]]).length - 1)⟩,
        freshAppendDir 0 [[PyVal.int 1], [PyVal.int 2], [PyVal.int 3]]⟩ ∧
    (freshAppendFiles 0 [[PyVal.int 1], [PyVal.int 2], [PyVal.int 3]]).length =
      1 + (3 - 2 + 0) / 1 ∧
    ((freshAppendFiles 0
        [[PyVal.int 1], [PyVal.int 2], [PyVal.int 3]]).headD
      emptyDataFile).rows.length = 2 ∧
    (∀ f ∈ (freshAppendFiles 0
        [[PyVal.int 1], [PyVal.int 2], [PyVal.int 3]]).tail.dropLast,
      f.rows.length = 1) :=
  rollover_characterization 0 4 "t" [⟨"id", "INTEGER"⟩]
    [[PyVal.int 1], [PyVal.int 2], [PyVal.int 3]] (by decide) (by decide)

/-! ### Scan visit order on single-digit directories -/

theorem lexLtB_asymm : ∀ (a b : List Char), lexLtB a b = true → lexLtB b a = false := by
  intro a
  induction a with
  | nil =>
    intro b h
    cases b with
    | nil => exact absurd h (by rw [lexLtB]; simp)
    | cons c cs => rfl
  | cons x xs ih =>
    intro b h
    cases b with
    | nil => exact absurd h (by rw [lexLtB]; simp)
    | cons y ys =>
      rw [lexLtB] at h ⊢
      by_cases hxy : x = y
      · subst hxy
        simp only [if_pos rfl] at h ⊢
        exact ih ys h
      · have hyx : ¬(y = x) := fun hc => hxy hc.symm
        simp only [hxy, if_false, hyx] at h ⊢
        unfold charLtB at h ⊢
        simp only [decide_eq_true_eq] at h
        simp only [decide_eq_false_iff_not]
        omega

theorem strLtB_asymm (a b : String) (h : strLtB a b = true) :
    strLtB b a = false :=
  lexLtB_asymm a.toList b.toList h

/-- An insertion sort leaves a strictly ascending list unchanged (the
insertion step only compares with the head). -/
theorem sortedB_of_chain : ∀ (l : List String),
    List.Chain' (fun a b => strLtB a b = true) l → sortedB l = l := by
  intro l
  induction l with
  | nil => intro _; rfl
  | cons x xs ih =>
    intro hch
    rw [sortedB, ih (List.Chain'.tail hch)]
    cases xs with
    | nil => rfl
    | cons y ys =>
      have hxy : strLtB x y = true := List.chain'_cons.mp hch |>.1
      have hyx : strLtB y x = false := strLtB_asymm x y hxy
      simp [orderedInsertB, hyx]

/-- Adjacent single-digit data file names are strictly ascending. -/
theorem fname_lt_succ : ∀ j, j < 9 → strLtB (fname j) (fname (j + 1)) = true := by
  decide

/-- The file-name sequence from index `i` is strictly ascending while all
indices stay single-digit. -/
theorem chain_fnames : ∀ (k i : Nat), i + k ≤ 10 →
    List.Chain' (fun a b => strLtB a b = true) (fnamesFrom i k) := by
  intro k
  induction k with
  | zero => intro i _; simp [fnamesFrom]
  | succ k ih =>
    intro i hik
    rw [fnamesFrom]
    cases k with
    | zero => simp [fnamesFrom]
    | succ k2 =>
      rw [fnamesFrom]
      apply List.chain'_cons.mpr
      constructor
      · exact fname_lt_succ i (by omega)
      · have := ih (i + 1) (by omega)
        rw [fnamesFrom] at this
        exact this

theorem keys_indexed : ∀ (fs : List DataFile) (i : Nat),
    (dirOfIndexedFrom i fs).map Prod.fst = fnamesFrom i fs.length := by
  intro fs
  induction fs with
  | nil => intro i; rfl
  | cons f rest ih =>
    intro i
    simp only [dirOfIndexedFrom, List.map_cons, List.length_cons, fnamesFrom]
    rw [ih (i + 1)]

theorem pyEndsWith_fname (i : Nat) : pyEndsWith (fname i) ".csv" = true := by
  unfold pyEndsWith fname
  rw [List.isSuffixOf_iff_suffix]
  refine ⟨("data_" ++ Nat.repr i).toList, ?_⟩
  simp [String.toList, String.data_append]

theorem filter_fnames_csv : ∀ (k i : Nat),
    (fnamesFrom i k).filter (fun n => pyEndsWith n ".csv") = fnamesFrom i k := by
  intro k
  induction k with
  | zero => intro i; rfl
  | succ k ih =>
    intro i
    rw [fnamesFrom, List.filter_cons]
    simp only [pyEndsWith_fname, if_true]
    rw [ih (i + 1)]

theorem alLookup_indexed : ∀ (fs : List DataFile) (i j : Nat),
    alLookup (dirOfIndexedFrom i fs) (fname (i + j)) = fs.get? j := by
  intro fs
  induction fs with
  | nil => intro i j; cases j <;> rfl
  | cons f rest ih =>
    intro i j
    cases j with
    | zero =>
      simp only [dirOfIndexedFrom, alLookup, Nat.add_zero, if_pos rfl]
      rfl
    | succ j2 =>
      simp only [dirOfIndexedFrom, alLookup]
      have hne : fname i ≠ fname (i + (j2 + 1)) := by
        intro hc
        have := fname_inj hc
        omega
      rw [if_neg hne]
      have harith : i + (j2 + 1) = (i + 1) + j2 := by omega
      rw [harith, ih (i + 1) j2]
      rfl

/-- Walking names `fname i …` over a directory whose lookups agree with
the file list processes the files in order. -/
theorem scanFilesGo_over (cols : List ColumnDef) : ∀ (fs : List DataFile)
    (i : Nat) (data : List (String × DataFile)),
    (∀ j, alLookup data (fname (i + j)) = fs.get? j) →
    scanFilesGo cols data (fnamesFrom i fs.length) = scanFilesSeq cols fs := by
  intro fs
  induction fs with
  | nil => intro i data _; rfl
  | cons f rest ih =>
    intro i data hlook
    simp only [List.length_cons, fnamesFrom, scanFilesGo, scanFilesSeq]
    have h0 : alLookup data (fname i) = some f := by
      have := hlook 0
      simpa using this
    rw [h0]
    have hrec : scanFilesGo cols data (fnamesFrom (i + 1) rest.length) =
        scanFilesSeq cols rest := by
      apply ih (i + 1) data
      intro j
      have := hlook (j + 1)
      have harith : i + (j + 1) = (i + 1) + j := by omega
      rw [harith] at this
      simpa using this
    rw [hrec]
    rfl

/-- C4 (amended): while a table has at most ten data files (so every
index is a single digit), `sorted(os.listdir(...))` coincides with
ascending numeric order: the scan visits `data_0.csv`, `data_1.csv`, … in
index order and processes each file's rows in append order (the flat
stream equals the sequential per-file scan).  With eleven or more files
the lexicographic order deviates (`data_10.csv` sorts before
`data_2.csv`). -/
theorem scan_visit_order_numeric :
    ∀ (fs : List DataFile) (meta : TableMetadata),
      fs.length ≤ 10 →
      scanVisitOrder ⟨meta, dirOfIndexedFrom 0 fs⟩ = fnamesFrom 0 fs.length ∧
      scanRows ⟨meta, dirOfIndexedFrom 0 fs⟩ = scanFilesSeq meta.columns fs := by
  intro fs meta h10
  have hvisit : scanVisitOrder ⟨meta, dirOfIndexedFrom 0 fs⟩ =
      fnamesFrom 0 fs.length := by
    unfold scanVisitOrder
    show ((sortedB ((dirOfIndexedFrom 0 fs).map Prod.fst)).filter
      (fun n => pyEndsWith n ".csv")) = _
    rw [keys_indexed fs 0,
      sortedB_of_chain _ (chain_fnames fs.length 0 (by omega)),
      filter_fnames_csv fs.length 0]
  refine ⟨hvisit, ?_⟩
  unfold scanRows
  rw [hvisit]
  exact scanFilesGo_over meta.columns fs 0 (dirOfIndexedFrom 0 fs)
    (fun j => by simpa using alLookup_indexed fs 0 j)

theorem scan_visit_order_numeric_witness :
    scanVisitOrder ⟨⟨"t", [⟨"id", "INTEGER"⟩], 4, 1, "data_1.csv"⟩,
        dirOfIndexedFrom 0 [⟨true, [["7"]]⟩, ⟨true, [["8"]]⟩]⟩ =
      fnamesFrom 0 2 ∧
    scanRows ⟨⟨"t", [⟨"id", "INTEGER"⟩], 4, 1, "data_1.csv"⟩,
        dirOfIndexedFrom 0 [⟨true, [["7"]]⟩, ⟨true, [["8"]]⟩]⟩ =
      scanFilesSeq [⟨"id", "INTEGER"⟩] [⟨true, [["7"]]⟩, ⟨true, [["8"]]⟩] :=
  scan_visit_order_numeric [⟨true, [["7"]]⟩, ⟨true, [["8"]]⟩]
    ⟨"t", [⟨"id", "INTEGER"⟩], 4, 1, "data_1.csv"⟩ (by decide)

/-! ### Round trip -/

theorem chunksBy_join_aux {α : Type} (n : Nat) : ∀ (m : Nat) (l : List α),
    l.length ≤ m → (chunksBy n l).flatten = l := by
  intro m
  induction m with
  | zero =>
    intro l h
    match l, h with
    | [], _ => rw [chunksBy_nil]; rfl
  | succ m ih =>
    intro l h
    match l with
    | [] => rw [chunksBy_nil]; rfl
    | x :: xs =>
      rw [chunksBy]
      simp only [List.flatten_cons]
      rw [ih (xs.drop n)
        (by simp only [List.length_drop, List.length_cons] at h ⊢; omega)]
      simp [List.take_append_drop]

theorem chunksBy_join {α : Type} (n : Nat) (l : List α) :
    (chunksBy n l).flatten = l :=
  chunksBy_join_aux n l.length l le_rfl

theorem convertRow_encoded : ∀ (cols : List ColumnDef) (row : List PyVal),
    ((cols.zip row).all fun cv => typeMatches cv.1.type cv.2) = true →
    convertRow cols (encRow row) = .ok (coerceRow cols row) := by
  intro cols
  induction cols with
  | nil => intro row _; rfl
  | cons c cs ih =>
    intro row hall
    cases row with
    | nil => rfl
    | cons v vs =>
      simp only [List.zip_cons_cons, List.all_cons, Bool.and_eq_true] at hall
      have hm := hall.1
      unfold typeMatches at hm
      unfold convertRow encRow at ih ⊢
      simp only [List.map_cons, List.zip_cons_cons, convertFields]
      cases hcv : convert_value (pyStr v) (pyUpper c.type) with
      | error e => rw [hcv] at hm; simp at hm
      | ok w =>
        have hih := ih vs hall.2
        simp only [List.zip] at hih
        rw [hih]
        simp only [coerceRow, List.zip_cons_cons, List.map_cons, coerceVal, hcv]

theorem convertRows_encoded (cols : List ColumnDef) :
    ∀ (chunk : List (List PyVal)),
    (∀ r ∈ chunk, ((cols.zip r).all fun cv => typeMatches cv.1.type cv.2) = true) →
    convertRows cols (chunk.map encRow) = .ok (chunk.map (coerceRow cols)) := by
  intro chunk
  induction chunk with
  | nil => intro _; rfl
  | cons r rest ih =>
    intro hall
    simp only [List.map_cons, convertRows]
    rw [convertRow_encoded cols r (hall r (by simp))]
    rw [ih fun q hq => hall q (by simp [hq])]

theorem scanFilesSeq_enc (cols : List ColumnDef) :
    ∀ (cs : List (List (List PyVal))),
    (∀ r ∈ cs.flatten, ((cols.zip r).all fun cv => typeMatches cv.1.type cv.2) = true) →
    scanFilesSeq cols (cs.map encFile) = .ok (cs.flatten.map (coerceRow cols)) := by
  intro cs
  induction cs with
  | nil => intro _; rfl
  | cons c rest ih =>
    intro hall
    simp only [List.map_cons, scanFilesSeq]
    have hread : readFileRows (encFile c) = c.map encRow := rfl
    rw [hread, convertRows_encoded cols c
      (fun r hr => hall r
        (by simp only [List.flatten_cons, List.mem_append]; exact Or.inl hr))]
    rw [ih fun r hr => hall r
      (by simp only [List.flatten_cons, List.mem_append]; exact Or.inr hr)]
    simp [List.flatten_cons, List.map_append]

theorem scanFilesSeq_fresh (cols : List ColumnDef) (n : Nat)
    (rows : List (List PyVal))
    (hall : ∀ r ∈ rows, ((cols.zip r).all fun cv => typeMatches cv.1.type cv.2) = true) :
    scanFilesSeq cols (freshAppendFiles n rows) =
      .ok (rows.map (coerceRow cols)) := by
  cases rows with
  | nil => rfl
  | cons r rs =>
    have hform : freshAppendFiles n (r :: rs) =
        ((r :: rs).take (n + 2) :: chunksBy n ((r :: rs).drop (n + 2))).map
          encFile := by
      simp [freshAppendFiles]
    rw [hform]
    have hjoin : ((r :: rs).take (n + 2) ::
        chunksBy n ((r :: rs).drop (n + 2))).flatten = r :: rs := by
      simp only [List.flatten_cons]
      rw [chunksBy_join]
      exact List.take_append_drop _ _
    rw [scanFilesSeq_enc cols _ (by rw [hjoin]; exact hall), hjoin]

theorem batchAcc_join {α : Type} (b : Nat) (hb : 1 ≤ b) : ∀ (l acc : List α),
    acc.length < b → (batchAcc b acc l).flatten = acc ++ l := by
  intro l
  induction l with
  | nil =>
    intro acc _
    by_cases hacc : acc.isEmpty
    · simp only [batchAcc, hacc, if_true, List.flatten_nil]
      rw [List.isEmpty_iff.mp hacc]
      rfl
    · simp only [batchAcc, hacc, Bool.false_eq_true, if_false]
      simp
  | cons x xs ih =>
    intro acc hlt
    simp only [batchAcc]
    by_cases hlen : (acc ++ [x]).length = b
    · simp only [hlen, eq_self_iff_true, if_true, List.flatten_cons]
      rw [ih [] (by simpa using hb)]
      simp
    · simp only [hlen, if_false]
      rw [ih (acc ++ [x]) (by simp at hlen ⊢; omega)]
      simp

/-- Running the pipeline reduces to the table-level operations: the
freshly created database and table are found by every lookup, and the
scan runs over the table directory the append produced. -/
theorem round_trip_run (maxFs : Nat) (db tbl du tu : String)
    (cols : List ColumnDef) (rows : List (List PyVal)) (fuel b : Nat)
    (T : TableDir)
    (h : appendRowsT (freshTableDir maxFs tbl cols) rows fuel = some T) :
    round_trip maxFs db tbl du tu cols rows fuel b =
      some (scanTableT T b) := by
  unfold round_trip create_database create_table append_rows scan_table newEngine
  simp [alLookup, alSet, alModify, h]

theorem freshAppendFiles_le_ten (n : Nat) (rows : List (List PyVal))
    (h10 : rows.length ≤ 10 * (n + 1) + 1) :
    (freshAppendFiles n rows).length ≤ 10 := by
  cases rows with
  | nil => simp [freshAppendFiles]
  | cons r rs =>
    simp only [freshAppendFiles, List.length_cons, List.length_map]
    rw [chunksBy_length]
    simp only [List.length_drop, List.length_cons]
    have hdiv : ((r :: rs).length - (n + 2) + n) / (n + 1) < 10 := by
      apply (Nat.div_lt_iff_lt_mul (by omega)).mpr
      simp only [List.length_cons] at h10 ⊢
      omega
    simp only [List.length_cons] at hdiv ⊢
    omega

/-- C1 (amended): for a table created with any column list and an engine
max file size that yields `max_rows_per_file = N = n + 1 ≥ 1`, and any
row list consistent with the columns (each row supplies one value per
declared column, convertible at its declared type), of length at most
`10·N + 1` (so that all data files keep single-digit indices and the
lexicographic visit order coincides with numeric order),
`create_table` then `append_rows` then `scan_table` with any batch size
`b ≥ 1` yields exactly the inserted rows in insertion order, field-wise
coerced to the declared column types, batched into `b`-sized batches
whose concatenation is the full coerced row list. -/
theorem round_trip_bounded :
    ∀ (n fs b : Nat) (db tbl du tu : String) (cols : List ColumnDef)
      (rows : List (List PyVal)),
      computedMaxRows fs cols = n + 1 →
      rows.length ≤ 10 * (n + 1) + 1 →
      rowsMatch cols rows = true →
      1 ≤ b →
      round_trip fs db tbl du tu cols rows (rows.length + 2) b =
        some (.ok (batchAcc b [] (rows.map (coerceRow cols)))) ∧
      (batchAcc b [] (rows.map (coerceRow cols))).flatten =
        rows.map (coerceRow cols) := by
  intro n fs b db tbl du tu cols rows hN h10 hmatch hb
  have hT := appendRowsT_fresh n fs tbl cols rows hN
  have hrun := round_trip_run fs db tbl du tu cols rows (rows.length + 2) b _ hT
  rw [hrun]
  have hlen10 := freshAppendFiles_le_ten n rows h10
  have hscan := (scan_visit_order_numeric (freshAppendFiles n rows)
    ⟨tbl, cols, fs, n + 1, fname ((freshAppendFiles n rows).length - 1)⟩
    hlen10).2
  have hall : ∀ r ∈ rows,
      ((cols.zip r).all fun cv => typeMatches cv.1.type cv.2) = true := by
    intro r hr
    have hx := List.all_eq_true.mp hmatch r hr
    simp only [Bool.and_eq_true] at hx
    exact hx.2
  have hseq := scanFilesSeq_fresh cols n rows hall
  refine ⟨?_, batchAcc_join b hb _ [] (by simpa using hb)⟩
  congr 1
  unfold scanTableT
  simp only [freshAppendDir] at hT ⊢
  rw [hscan]
  show (match scanFilesSeq cols (freshAppendFiles n rows) with
    | Except.error e => Except.error e
    | Except.ok rs => Except.ok (batchAcc b [] rs)) = _
  rw [hseq]

theorem round_trip_bounded_witness :
    round_trip 4 "db" "t" "u0" "u1" [⟨"id", "INTEGER"⟩]
        [[PyVal.int 1], [PyVal.int 2], [PyVal.int 3]] (3 + 2) 2 =
      some (.ok (batchAcc 2 []
        ([[PyVal.int 1], [PyVal.int 2], [PyVal.int 3]].map
          (coerceRow [⟨"id", "INTEGER"⟩])))) ∧
    (batchAcc 2 [] ([[PyVal.int 1], [PyVal.int 2], [PyVal.int 3]].map
        (coerceRow [⟨"id", "INTEGER"⟩]))).flatten =
      [[PyVal.int 1], [PyVal.int 2], [PyVal.int 3]].map
        (coerceRow [⟨"id", "INTEGER"⟩]) :=
  round_trip_bounded 0 4 2 "db" "t" "u0" "u1" [⟨"id", "INTEGER"⟩]
    [[PyVal.int 1], [PyVal.int 2], [PyVal.int 3]]
    (by decide) (by decide) (by decide) (by decide)
